import Mathlib

/-!
Verification development for the StitchWyse request-ingress layer
(Next.js Stripe checkout backend).  The TypeScript route handlers and
library modules are shallowly embedded as executable Lean definitions:

* `src/lib/cors.ts`                     → `parseAllowedOrigins`, `isOriginAllowed`
* `src/lib/stripe-price-allowlist.ts`   → `parseCsv`, `getStripePriceAllowlist`,
                                          `validateStripePriceId`
* `src/lib/rate-limit.ts`               → `rateLimit`
* `src/app/api/webhook/route.ts`        → `Webhook` namespace
* `src/app/api/checkout/route.ts`       → `Checkout` namespace
* `src/app/api/custom-order/route.ts`   → `CustomOrder` namespace

Conventions: JS strings are Lean `String`s (character-based lengths; the
claims only exercise ASCII data), JS numbers arising from JSON are `ℚ`
(JSON numerals are finite decimals, hence rationals), machine timestamps
and byte counts are `Nat`, request body streams are lists of byte chunks,
and external collaborators (the WHATWG URL parser, `JSON.parse`, Stripe's
`constructEvent` signature verifier, the Turnstile verifier) are abstract
function parameters.  `process.env` lookups are fields of explicit
environment records.
-/

namespace StitchWyse

/-! ### JavaScript string primitives -/

/-- The character class matched by `\w` and by `[a-zA-Z0-9_]`. -/
def isWordChar (c : Char) : Bool :=
  c.isAlphanum || c == '_'

/-- Whitespace trimming as performed by `String.prototype.trim` (ASCII range). -/
def jsTrimList (l : List Char) : List Char :=
  ((l.dropWhile Char.isWhitespace).reverse.dropWhile Char.isWhitespace).reverse

/-- `s.trim()` on a JS string. -/
def jsTrim (s : String) : String :=
  String.mk (jsTrimList s.toList)

/-- `s.toLowerCase()` restricted to the ASCII letters the code compares. -/
def jsToLower (s : String) : String :=
  String.mk (s.toList.map Char.toLower)

/-- `a.startsWith(b)` on JS strings. -/
def jsStartsWith (s pat : String) : Bool :=
  s.toList.take pat.toList.length == pat.toList

/-- `s.slice(0, n)` on a JS string. -/
def jsSlice (s : String) (n : Nat) : String :=
  String.mk (s.toList.take n)

/-- `s.split(sep)` for a single-character separator (used with `","`). -/
def jsSplitAux (sep : Char) : List Char → List Char → List String
  | [], cur => [String.mk cur.reverse]
  | c :: rest, cur =>
    if c == sep then String.mk cur.reverse :: jsSplitAux sep rest []
    else jsSplitAux sep rest (c :: cur)

/-- `s.split(",")` on a JS string. -/
def jsSplitComma (s : String) : List String :=
  jsSplitAux ',' s.toList []

/-! ### JSON values

`JSON.parse` output: null, booleans, numbers, strings, arrays and objects.
Objects are association lists in insertion order; `JSON.parse` yields
distinct keys, and property access reads the binding found first. -/

inductive Json where
  | null
  | bool (b : Bool)
  | num (q : ℚ)
  | str (s : String)
  | arr (elements : List Json)
  | obj (fields : List (String × Json))

/-- Property access `body.key` on a parsed JSON object. -/
def lookupField : List (String × Json) → String → Option Json
  | [], _ => none
  | (k, v) :: rest, key => if k = key then some v else lookupField rest key

/-! ### src/lib/cors.ts -/

/-- `parseAllowedOrigins` from `src/lib/cors.ts`: trim the `ALLOWED_ORIGIN`
environment value, return `[]` when unset or blank, otherwise split on
commas, trim each piece and drop empties. -/
def parseAllowedOrigins (envAllowedOrigin : Option String) : List String :=
  match envAllowedOrigin with
  | none => []
  | some s =>
    let raw := jsTrim s
    if raw.isEmpty then []
    else ((jsSplitComma raw).map jsTrim).filter (fun origin => origin.length > 0)

/-- `isOriginAllowed` from `src/lib/cors.ts`. -/
def isOriginAllowed (envAllowedOrigin : Option String) (originHeader : Option String) : Bool :=
  let configuredOrigins := parseAllowedOrigins envAllowedOrigin
  if configuredOrigins.isEmpty then true
  else
    match originHeader with
    | none => false
    | some o => configuredOrigins.contains o

/-! ### src/lib/stripe-price-allowlist.ts -/

/-- `parseCsv` from `src/lib/stripe-price-allowlist.ts`. -/
def parseCsv (input : String) : List String :=
  ((jsSplitComma input).map jsTrim).filter (fun value => value.length > 0)

/-- The allowlist configuration record; the JS `Set` is modelled by the
underlying list (only membership and emptiness are consumed). -/
structure StripePriceAllowlist where
  enforce : Bool
  allowedPriceIds : List String
deriving DecidableEq

/-- `getStripePriceAllowlist` from `src/lib/stripe-price-allowlist.ts`. -/
def getStripePriceAllowlist (envAllowedIds envEnforce : Option String)
    (nodeEnvIsProduction : Bool) : StripePriceAllowlist :=
  let allowlistRaw := jsTrim ((envAllowedIds).getD "")
  let enforceRaw := jsTrim ((envEnforce).getD "")
  let allowed := parseCsv allowlistRaw
  let enforce :=
    if enforceRaw.length > 0 then jsToLower enforceRaw == "true"
    else nodeEnvIsProduction
  { enforce := enforce, allowedPriceIds := allowed }

/-- The regular expression test for `^price_[a-zA-Z0-9]+$`. -/
def priceIdPatternTest (s : String) : Bool :=
  match s.toList with
  | 'p' :: 'r' :: 'i' :: 'c' :: 'e' :: '_' :: rest =>
    !rest.isEmpty && rest.all Char.isAlphanum
  | _ => false

/-- `validateStripePriceId` from `src/lib/stripe-price-allowlist.ts`: returns
`some errorMessage` on failure, `none` on success. -/
def validateStripePriceId (priceId : String) : Option String :=
  let trimmed := jsTrim priceId
  if trimmed.isEmpty then some "priceId must be a non-empty string."
  else if !priceIdPatternTest trimmed then
    some "priceId must look like a Stripe Price ID (price_...)."
  else none

/-! ### src/lib/rate-limit.ts -/

/-- One entry of the in-memory map. -/
structure RateLimitEntry where
  count : Nat
  resetAt : Nat
deriving DecidableEq

structure RateLimitConfig where
  requests : Nat
  window : Nat
deriving DecidableEq

structure RateLimitResult where
  allowed : Bool
  remaining : Int
  resetAt : Nat
deriving DecidableEq

/-- The `rateLimitMap`, keyed by identifier.  (The hourly sweep only evicts
entries that are already treated as expired by `rateLimit` itself.) -/
def RateLimitStore := String → Option RateLimitEntry

def RateLimitStore.set (store : RateLimitStore) (key : String) (entry : RateLimitEntry) :
    RateLimitStore :=
  fun k => if k = key then some entry else store k

/-- `rateLimit` from `src/lib/rate-limit.ts`, with `Date.now()` passed in as
`now` and the mutable map threaded explicitly. -/
def rateLimit (identifier : String) (config : RateLimitConfig) (now : Nat)
    (store : RateLimitStore) : RateLimitResult × RateLimitStore :=
  match store identifier with
  | none =>
    let newEntry : RateLimitEntry := { count := 1, resetAt := now + config.window }
    ({ allowed := true, remaining := (config.requests : Int) - 1, resetAt := newEntry.resetAt },
      store.set identifier newEntry)
  | some entry =>
    if entry.resetAt < now then
      let newEntry : RateLimitEntry := { count := 1, resetAt := now + config.window }
      ({ allowed := true, remaining := (config.requests : Int) - 1, resetAt := newEntry.resetAt },
        store.set identifier newEntry)
    else
      let entry' : RateLimitEntry := { entry with count := entry.count + 1 }
      if entry'.count > config.requests then
        ({ allowed := false, remaining := 0, resetAt := entry'.resetAt },
          store.set identifier entry')
      else
        ({ allowed := true, remaining := (config.requests : Int) - entry'.count,
           resetAt := entry'.resetAt },
          store.set identifier entry')

/-- A sequence of `rateLimit` calls for one identifier, at the given call
times, threading the store. -/
def rateLimitSeq (identifier : String) (config : RateLimitConfig) :
    List Nat → RateLimitStore → List RateLimitResult × RateLimitStore
  | [], store => ([], store)
  | now :: rest, store =>
    let step := rateLimit identifier config now store
    let tail := rateLimitSeq identifier config rest step.2
    (step.1 :: tail.1, tail.2)

/-! ### Bounded body reading (shared by webhook and custom-order routes)

The request body is a `ReadableStream` of `Uint8Array` chunks.  One
`reader.read()` step either yields a chunk of bytes, yields an undefined
`value` (skipped by the `if (!value) continue` guard), or throws (the
`catch` branch).  An absent `request.body` is `none`. -/

inductive StreamItem where
  | chunk (bytes : List Nat)
  | empty
  | err
deriving DecidableEq

def StreamItem.isErr : StreamItem → Bool
  | .err => true
  | _ => false

/-- `BodyReadResult` from the route files; the body is kept as its byte
sequence (the code decodes those exact bytes as UTF-8). -/
inductive BodyReadResult where
  | ok (body : List Nat)
  | tooLarge
  | invalid
deriving DecidableEq

/-- The `while (true)` loop of `readRequestBodyWithLimit`: accumulate
chunks and a byte counter; cancel with `tooLarge` as soon as the counter
exceeds `maxBytes` (the overflowing chunk is never buffered); a thrown
read maps to the `invalid` reason. -/
def readLoop (maxBytes : Nat) : List StreamItem → List (List Nat) → Nat → BodyReadResult
  | [], chunks, _total => .ok chunks.flatten
  | .err :: _, _, _ => .invalid
  | .empty :: rest, chunks, total => readLoop maxBytes rest chunks total
  | .chunk value :: rest, chunks, total =>
    let totalBytes := total + value.length
    if totalBytes > maxBytes then .tooLarge
    else readLoop maxBytes rest (chunks ++ [value]) totalBytes

/-- `readRequestBodyWithLimit` from `src/app/api/webhook/route.ts` and
`src/app/api/custom-order/route.ts` (identical definitions). -/
def readRequestBodyWithLimit (body? : Option (List StreamItem)) (maxBytes : Nat) :
    BodyReadResult :=
  match body? with
  | none => .ok []
  | some items => readLoop maxBytes items [] 0

/-- The successive values of the `totalBytes` counter while chunks are
being buffered (the observable memory footprint of the read). -/
def readLoopTotals (maxBytes : Nat) : List StreamItem → Nat → List Nat
  | [], _ => []
  | .err :: _, _ => []
  | .empty :: rest, total => readLoopTotals maxBytes rest total
  | .chunk value :: rest, total =>
    let totalBytes := total + value.length
    if totalBytes > maxBytes then []
    else totalBytes :: readLoopTotals maxBytes rest totalBytes

/-- The chunks a stream actually delivers (its `.chunk` items). -/
def receivedChunks (items : List StreamItem) : List (List Nat) :=
  items.filterMap (fun i => match i with | .chunk v => some v | _ => none)

/-- Total byte count delivered by a stream. -/
def streamByteCount (body? : Option (List StreamItem)) : Nat :=
  match body? with
  | none => 0
  | some items => ((receivedChunks items).map List.length).sum

/-- Concatenation of all delivered chunks. -/
def streamBytes (body? : Option (List StreamItem)) : List Nat :=
  match body? with
  | none => []
  | some items => (receivedChunks items).flatten

/-- A stream none of whose read steps throws. -/
def errFree (body? : Option (List StreamItem)) : Bool :=
  match body? with
  | none => true
  | some items => items.all (fun i => !i.isErr)

/-! ### Content-Length parsing (shared by webhook and custom-order routes) -/

structure ParsedContentLength where
  bytes : Option Nat
  invalid : Bool
deriving DecidableEq

/-- `Number.MAX_SAFE_INTEGER`. -/
def maxSafeInteger : Nat := 2 ^ 53 - 1

/-- The `/^\d+$/` test. -/
def allDigits (s : String) : Bool :=
  !s.toList.isEmpty && s.toList.all Char.isDigit

/-- Numeric value of a digit string (`Number.parseInt(trimmed, 10)`; the
parsed double passes `Number.isSafeInteger` exactly when this value is at
most `2^53 - 1`, and is exact in that range). -/
def digitsToNat (s : String) : Nat :=
  s.toList.foldl (fun acc c => acc * 10 + (c.toNat - '0'.toNat)) 0

/-- `parseContentLength` from the webhook and custom-order routes. -/
def parseContentLength (headerValue : Option String) : ParsedContentLength :=
  match headerValue with
  | none => { bytes := none, invalid := false }
  | some v =>
    let trimmed := jsTrim v
    if !allDigits trimmed then { bytes := none, invalid := true }
    else
      let bytes := digitsToNat trimmed
      if bytes > maxSafeInteger then { bytes := none, invalid := true }
      else { bytes := some bytes, invalid := false }

/-! ### src/app/api/webhook/route.ts -/

namespace Webhook

def MAX_WEBHOOK_BODY_BYTES : Nat := 256 * 1024

structure WebhookEnv where
  STRIPE_WEBHOOK_SECRET : Option String

structure WebhookRequest where
  signatureHeader : Option String
  contentLengthHeader : Option String
  body? : Option (List StreamItem)

/-- A parsed Stripe event, as produced by `stripe.webhooks.constructEvent`
after successful signature verification. -/
structure StripeEvent where
  type : String
  id : String
deriving DecidableEq

/-- `getWebhookSecret` from the webhook route. -/
def getWebhookSecret (env : WebhookEnv) : Option String :=
  match env.STRIPE_WEBHOOK_SECRET with
  | none => none
  | some s =>
    let secret := jsTrim s
    if secret.length > 0 then some secret else none

/-- The distinct responses the handler can produce before (or instead of)
acknowledging the event. -/
inductive WebhookResponse where
  | misconfigured
  | missingSignature
  | invalidContentLength
  | payloadTooLarge
  | bodyReadFailed
  | invalidSignature
  | received
deriving DecidableEq

/-- HTTP status of each response. -/
def webhookStatus : WebhookResponse → Nat
  | .misconfigured => 500
  | .missingSignature => 400
  | .invalidContentLength => 400
  | .payloadTooLarge => 413
  | .bodyReadFailed => 400
  | .invalidSignature => 400
  | .received => 200

/-- Error message of each `jsonError` call in the handler. -/
def webhookMessage : WebhookResponse → Option String
  | .misconfigured => some "Server misconfigured: missing STRIPE_WEBHOOK_SECRET."
  | .missingSignature => some "Missing Stripe-Signature header."
  | .invalidContentLength => some "Invalid Content-Length header."
  | .payloadTooLarge => some "Payload too large."
  | .bodyReadFailed => some "Invalid webhook request body."
  | .invalidSignature => some "Invalid webhook signature."
  | .received => none

structure WebhookOutcome where
  response : WebhookResponse
  /-- The event the `switch (event.type)` routing ran on, if any. -/
  routedEvent : Option StripeEvent
  /-- Whether `readRequestBodyWithLimit` was invoked. -/
  bodyReadAttempted : Bool
deriving DecidableEq

/-- `POST` from `src/app/api/webhook/route.ts`.  `constructEvent` is the
Stripe SDK's signature verifier, abstracted as a function of the raw body
bytes, the `Stripe-Signature` header and the shared secret; it returns
`none` exactly when verification throws. -/
def POST (constructEvent : List Nat → String → String → Option StripeEvent)
    (env : WebhookEnv) (request : WebhookRequest) : WebhookOutcome :=
  match getWebhookSecret env with
  | none => { response := .misconfigured, routedEvent := none, bodyReadAttempted := false }
  | some webhookSecret =>
    match request.signatureHeader with
    | none => { response := .missingSignature, routedEvent := none, bodyReadAttempted := false }
    | some signature =>
      let contentLength := parseContentLength request.contentLengthHeader
      if contentLength.invalid then
        { response := .invalidContentLength, routedEvent := none, bodyReadAttempted := false }
      else if contentLength.bytes.any (fun b => b > MAX_WEBHOOK_BODY_BYTES) then
        { response := .payloadTooLarge, routedEvent := none, bodyReadAttempted := false }
      else
        let tail : WebhookResponse × Option StripeEvent :=
          match readRequestBodyWithLimit request.body? MAX_WEBHOOK_BODY_BYTES with
          | .tooLarge => (.payloadTooLarge, none)
          | .invalid => (.bodyReadFailed, none)
          | .ok rawBody =>
            match constructEvent rawBody signature webhookSecret with
            | none => (.invalidSignature, none)
            | some event => (.received, some event)
        { response := tail.1, routedEvent := tail.2, bodyReadAttempted := true }

end Webhook

/-! ### src/app/api/checkout/route.ts -/

namespace Checkout

def MAX_QUANTITY : Nat := 99
def MAX_LINE_ITEMS : Nat := 50
def MAX_METADATA_KEY_LENGTH : Nat := 40
def MAX_METADATA_VALUE_LENGTH : Nat := 500
def MAX_METADATA_ENTRIES : Nat := 50

structure CheckoutItem where
  priceId : String
  quantity : ℚ
deriving DecidableEq

structure CheckoutPayload where
  items : List CheckoutItem
  customerEmail : Option String
  metadata : Option (List (String × Json))

/-- `ValidationResult` from the checkout route (`payload` xor `error`). -/
inductive CheckoutValidation where
  | ok (payload : CheckoutPayload)
  | err (message : String)

def CheckoutValidation.isOk : CheckoutValidation → Bool
  | .ok _ => true
  | .err _ => false

/-- `String(rawValue)` on a JSON value (arrays stringify their elements
joined by commas, with `null` elements blank; the `num` rendering
abstracts the exact JS float formatting — only the resulting length
bound is consumed downstream). -/
def jsonToStringJS : Json → String
  | .null => "null"
  | .bool b => if b then "true" else "false"
  | .num q => toString q
  | .str s => s
  | .obj _ => "[object Object]"
  | .arr elements =>
    String.intercalate ","
      (elements.attach.map (fun e =>
        match e.1 with
        | .null => ""
        | _ => jsonToStringJS e.1))
decreasing_by
  have := List.sizeOf_lt_of_mem e.2
  simp only [Json.arr.sizeOf_spec]
  omega

/-- Key sanitization `rawKey.replace(/[^a-zA-Z0-9_]/g, "_").slice(0, 40)`. -/
def sanitizeMetadataKey (rawKey : String) : String :=
  jsSlice (String.mk (rawKey.toList.map (fun c => if isWordChar c then c else '_')))
    MAX_METADATA_KEY_LENGTH

/-- Property write `sanitized[key] = value` on a JS object: overwrite the
existing binding in place, else append. -/
def setEntry (m : List (String × String)) (key value : String) : List (String × String) :=
  if m.any (fun p => p.1 = key) then
    m.map (fun p => if p.1 = key then (p.1, value) else p)
  else m ++ [(key, value)]

/-- Property read on the sanitized metadata object. -/
def lookupEntry : List (String × String) → String → Option String
  | [], _ => none
  | (k, v) :: rest, key => if k = key then some v else lookupEntry rest key

/-- The shape claim C8 asserts of every sanitized metadata entry: an
identifier-safe key of at most 40 characters and a string value of at
most 500 characters. -/
def metadataEntryWellFormed (kv : String × String) : Prop :=
  kv.1.toList.all isWordChar = true ∧ kv.1.length ≤ MAX_METADATA_KEY_LENGTH ∧
    kv.2.length ≤ MAX_METADATA_VALUE_LENGTH

/-- The `for (const [rawKey, rawValue] of Object.entries(input))` loop of
`sanitizeMetadata`; `acc.length` is `Object.keys(sanitized).length` (the
accumulator keeps distinct keys by construction from `[]`). -/
def sanitizeMetadataLoop : List (String × Json) → List (String × String) →
    List (String × String)
  | [], acc => acc
  | (rawKey, rawValue) :: rest, acc =>
    if acc.length ≥ MAX_METADATA_ENTRIES - 1 then acc
    else
      match rawValue with
      | .null => sanitizeMetadataLoop rest acc
      | _ =>
        let key := sanitizeMetadataKey rawKey
        if key.isEmpty || key = "source" then sanitizeMetadataLoop rest acc
        else
          sanitizeMetadataLoop rest
            (setEntry acc key (jsSlice (jsonToStringJS rawValue) MAX_METADATA_VALUE_LENGTH))

/-- `sanitizeMetadata` from the checkout route. -/
def sanitizeMetadata (input : Option (List (String × Json))) : List (String × String) :=
  let sanitized :=
    match input with
    | some entries => sanitizeMetadataLoop entries []
    | none => []
  setEntry sanitized "source" "framer"

/-- The quantity guard: a JS number that is an integer between 1 and
`MAX_QUANTITY`. -/
def quantityOk (q : ℚ) : Bool :=
  q.den == 1 && decide (1 ≤ q) && decide (q ≤ (MAX_QUANTITY : ℚ))

/-- The `for (const [index, item] of itemsInput.entries())` loop of
`validatePayload`, returning the parsed items or the first error message. -/
def validateItems : List Json → Nat → String ⊕ List CheckoutItem
  | [], _ => .inr []
  | item :: rest, index =>
    match item with
    | .obj fields =>
      (match lookupField fields "priceId" with
       | some (.str priceId) =>
         (match validateStripePriceId priceId with
          | some priceIdError => .inl s!"items[{index}].{priceIdError}"
          | none =>
            (match lookupField fields "quantity" with
             | some (.num quantity) =>
               if quantityOk quantity then
                 (match validateItems rest (index + 1) with
                  | .inl e => .inl e
                  | .inr parsed => .inr ({ priceId := jsTrim priceId, quantity := quantity } :: parsed))
               else .inl s!"items[{index}].quantity must be an integer between 1 and 99."
             | _ => .inl s!"items[{index}].quantity must be an integer between 1 and 99."))
       | _ => .inl s!"items[{index}].priceId must be a string.")
    | _ => .inl s!"items[{index}] must be an object."

/-- `validatePayload` from `src/app/api/checkout/route.ts`. -/
def validatePayload (input : Json) : CheckoutValidation :=
  match input with
  | .obj body =>
    (match lookupField body "items" with
     | some (.arr itemsInput) =>
       if itemsInput.isEmpty then .err "items must be a non-empty array."
       else if itemsInput.length > MAX_LINE_ITEMS then
         .err "items must not exceed 50 line items."
       else
         (match validateItems itemsInput 0 with
          | .inl message => .err message
          | .inr parsedItems =>
            (match lookupField body "customerEmail" with
             | none => continueWithEmail body parsedItems none
             | some (.str customerEmailInput) =>
               let trimmedEmail := jsTrim customerEmailInput
               continueWithEmail body parsedItems
                 (if trimmedEmail.length > 0 then some trimmedEmail else none)
             | some _ => .err "customerEmail must be a string when provided."))
     | _ => .err "items must be a non-empty array.")
  | _ => .err "Body must be a JSON object."
where
  /-- The metadata tail of `validatePayload`, after the email checks. -/
  continueWithEmail (body : List (String × Json)) (parsedItems : List CheckoutItem)
      (customerEmail : Option String) : CheckoutValidation :=
    match lookupField body "metadata" with
    | none => .ok { items := parsedItems, customerEmail := customerEmail, metadata := none }
    | some (.obj metadataFields) =>
      .ok { items := parsedItems, customerEmail := customerEmail,
            metadata := some metadataFields }
    | some _ => .err "metadata must be an object when provided."

structure CheckoutEnv where
  ALLOWED_ORIGIN : Option String
  SUCCESS_URL : Option String
  CANCEL_URL : Option String
  ALLOWED_STRIPE_PRICE_IDS : Option String
  ENFORCE_STRIPE_PRICE_ALLOWLIST : Option String
  nodeEnvIsProduction : Bool
  DEFAULT_CURRENCY : Option String

structure CheckoutRequest where
  originHeader : Option String
  /-- Result of `await request.json()`: `none` when parsing throws. -/
  bodyJson : Option Json
  idempotencyKeyHeader : Option String

/-- `getRequiredUrl` from the checkout route; `new URL(value)` (the WHATWG
parser) is abstracted as the `isValidUrl` collaborator. -/
def getRequiredUrl (isValidUrl : String → Bool) (value : Option String) : Option String :=
  match value with
  | none => none
  | some raw =>
    let v := jsTrim raw
    if v.isEmpty then none
    else if isValidUrl v then some v else none

/-- The allowlist configuration the checkout handler loads from its
environment. -/
def envAllowlist (env : CheckoutEnv) : StripePriceAllowlist :=
  getStripePriceAllowlist env.ALLOWED_STRIPE_PRICE_IDS env.ENFORCE_STRIPE_PRICE_ALLOWLIST
    env.nodeEnvIsProduction

/-- The session-creation request handed to
`stripe.checkout.sessions.create`, together with the ids the advisory
(non-enforcing) allowlist branch logged. -/
structure SessionRequest where
  lineItems : List CheckoutItem
  customerEmail : Option String
  metadata : List (String × String)
  idempotencyKey : Option String
  warnedInvalidIds : List String

inductive CheckoutResult where
  | forbiddenOrigin
  | misconfiguredUrls
  | invalidJson
  | validationFailed (message : String)
  | allowlistMisconfigured
  | invalidItems
  | createSession (session : SessionRequest)

def checkoutStatus : CheckoutResult → Nat
  | .forbiddenOrigin => 403
  | .misconfiguredUrls => 500
  | .invalidJson => 400
  | .validationFailed _ => 400
  | .allowlistMisconfigured => 500
  | .invalidItems => 400
  | .createSession _ => 200

structure CheckoutOutcome where
  result : CheckoutResult
  /-- Whether `request.json()` was awaited (the body was read). -/
  bodyRead : Bool

/-- `POST` from `src/app/api/checkout/route.ts`, up to the delegation to
the Stripe collaborator (a `createSession` result is the session-creation
call). -/
def POST (isValidUrl : String → Bool) (env : CheckoutEnv) (request : CheckoutRequest) :
    CheckoutOutcome :=
  if !isOriginAllowed env.ALLOWED_ORIGIN request.originHeader then
    { result := .forbiddenOrigin, bodyRead := false }
  else
    match getRequiredUrl isValidUrl env.SUCCESS_URL,
          getRequiredUrl isValidUrl env.CANCEL_URL with
    | some _, some _ =>
      let allowlist := envAllowlist env
      (match request.bodyJson with
       | none => { result := .invalidJson, bodyRead := true }
       | some body =>
         (match validatePayload body with
          | .err message => { result := .validationFailed message, bodyRead := true }
          | .ok payload =>
            if allowlist.enforce then
              if allowlist.allowedPriceIds.isEmpty then
                { result := .allowlistMisconfigured, bodyRead := true }
              else
                let invalidIds := (payload.items.map (fun item => item.priceId)).filter
                  (fun priceId => !allowlist.allowedPriceIds.contains priceId)
                if !invalidIds.isEmpty then { result := .invalidItems, bodyRead := true }
                else { result := .createSession (buildSession env request payload []),
                       bodyRead := true }
            else
              let invalidIds :=
                if !allowlist.allowedPriceIds.isEmpty then
                  (payload.items.map (fun item => item.priceId)).filter
                    (fun priceId => !allowlist.allowedPriceIds.contains priceId)
                else []
              { result := .createSession (buildSession env request payload invalidIds),
                bodyRead := true }))
    | _, _ => { result := .misconfiguredUrls, bodyRead := false }
where
  /-- Metadata finalization, idempotency-key normalization and parameter
  assembly for the session-creation call. -/
  buildSession (env : CheckoutEnv) (request : CheckoutRequest) (payload : CheckoutPayload)
      (warnedInvalidIds : List String) : SessionRequest :=
    let metadata := setEntry (sanitizeMetadata payload.metadata) "default_currency"
      (jsSlice (let c := jsTrim (env.DEFAULT_CURRENCY.getD "")
                if c.isEmpty then "gbp" else c) MAX_METADATA_VALUE_LENGTH)
    let idempotencyKey :=
      match request.idempotencyKeyHeader with
      | none => none
      | some h => if (jsTrim h).length > 0 then some (jsSlice (jsTrim h) 255) else none
    { lineItems := payload.items, customerEmail := payload.customerEmail,
      metadata := metadata, idempotencyKey := idempotencyKey,
      warnedInvalidIds := warnedInvalidIds }

end Checkout

/-! ### src/app/api/custom-order/route.ts -/

namespace CustomOrder

def MAX_REQUEST_BYTES : Nat := 3 * 1024 * 1024
def MAX_DESIGN_IMAGE_BYTES : Nat := 2 * 1024 * 1024
def MAX_CAPTCHA_TOKEN_LENGTH : Nat := 2048
def MAX_NAME_LENGTH : Nat := 100
def MAX_EMAIL_LENGTH : Nat := 254
def MAX_PRODUCT_FIELD_LENGTH : Nat := 100
def MAX_COLOR_LENGTH : Nat := 64
def MAX_COLORS : Nat := 10

/-- Whether the list starts with `javascript:` up to ASCII case. -/
def matchesJavascriptAt (l : List Char) : Bool :=
  (l.take 11).map Char.toLower == "javascript:".toList

/-- Length of the leftmost `/on\w+=/i` match anchored at the head of the
list, if any: `o`/`O`, `n`/`N`, a maximal non-empty run of word
characters, then `=` (since `=` is not a word character, backtracking the
greedy `\w+` can never succeed, so the maximal run is the only candidate). -/
def matchesOnHandlerAt (l : List Char) : Option Nat :=
  match l with
  | c0 :: c1 :: rest =>
    if (c0.toLower == 'o') && (c1.toLower == 'n') then
      let run := rest.takeWhile isWordChar
      if run.isEmpty then none
      else
        match rest.drop run.length with
        | '=' :: _ => some (2 + run.length + 1)
        | _ => none
    else none
  | _ => none

/-- `input.replace(/javascript:/gi, "")`: remove leftmost non-overlapping
matches scanning the original string left to right (the scan resumes after
each removed match, so removals never create new matches).  `fuel` is an
upper bound on the remaining length, so the structural recursion mirrors
the linear scan. -/
def removeJavascriptAux : Nat → List Char → List Char
  | 0, _ => []
  | _, [] => []
  | fuel + 1, c :: rest =>
    if matchesJavascriptAt (c :: rest) then removeJavascriptAux fuel (rest.drop 10)
    else c :: removeJavascriptAux fuel rest

/-- `input.replace(/on\w+=/gi, "")` under the same scanning discipline. -/
def removeOnHandlersAux : Nat → List Char → List Char
  | 0, _ => []
  | _, [] => []
  | fuel + 1, c :: rest =>
    match matchesOnHandlerAt (c :: rest) with
    | some k => removeOnHandlersAux fuel ((c :: rest).drop k)
    | none => c :: removeOnHandlersAux fuel rest

/-- `sanitizeInput` from `src/app/api/custom-order/route.ts`: strip angle
brackets, `javascript:` prefixes and inline-event-handler patterns, then
trim and truncate to `maxLength`. -/
def sanitizeInput (input : String) (maxLength : Nat) : String :=
  let noAngles := input.toList.filter (fun c => !(c == '<' || c == '>'))
  let noJs := removeJavascriptAux noAngles.length noAngles
  let noHandlers := removeOnHandlersAux noJs.length noJs
  jsSlice (jsTrim (String.mk noHandlers)) maxLength

/-- The `EMAIL_REGEX` test `/^[^\s@]+@[^\s@]+\.[^\s@]+$/`: the string is
`local@rest` where `local` is non-empty without whitespace or `@`, and
`rest` is likewise and contains a `.` that is neither its first nor its
last character (so `rest = B.C` with `B`, `C` non-empty). -/
def emailRegexTest (s : String) : Bool :=
  let noWs (part : List Char) : Bool := part.all (fun c => !c.isWhitespace)
  match jsSplitAux '@' s.toList [] with
  | [localPart, rest] =>
    let lp := localPart.toList
    let rp := rest.toList
    !lp.isEmpty && noWs lp && !rp.isEmpty && noWs rp &&
      ((rp.drop 1).dropLast.contains '.')
  | _ => false

/-- Base64 character class `[A-Za-z0-9+/=]`. -/
def isBase64Char (c : Char) : Bool :=
  c.isAlphanum || c == '+' || c == '/' || c == '='

/-- Byte length of Node's `Buffer.from(encoded, "base64")` for strings in
the base64 character class: decoding consumes the digits before the first
`=` terminator, three bytes per four digits (modelled collaborator:
Node's forgiving base64 decoder, of which only the output length is
consumed). -/
def base64DecodedByteLength (encoded : String) : Nat :=
  (encoded.toList.takeWhile (fun c => c != '=')).length * 3 / 4

/-- The strict data-URI pattern
`/^data:(image\/png|image\/jpeg);base64,([A-Za-z0-9+/=]+)$/`, returning
the captured base64 payload on a match. -/
def designImageMatch (s : String) : Option String :=
  let png := "data:image/png;base64,"
  let jpeg := "data:image/jpeg;base64,"
  let headLen := if jsStartsWith s png then some png.toList.length
    else if jsStartsWith s jpeg then some jpeg.toList.length
    else none
  match headLen with
  | none => none
  | some n =>
    let encoded := s.toList.drop n
    if !encoded.isEmpty && encoded.all isBase64Char then some (String.mk encoded)
    else none

/-- `parseDesignImage` from the custom-order route.  Input `none` is an
absent (`undefined`) field.  Result: `none` = `undefined` (absent or
invalid), `some none` = `null` (explicit null or blank string),
`some (some s)` = the accepted trimmed data URI. -/
def parseDesignImage (input : Option Json) : Option (Option String) :=
  match input with
  | none => none
  | some .null => some none
  | some (.str s) =>
    let trimmed := jsTrim s
    if trimmed.isEmpty then some none
    else
      match designImageMatch trimmed with
      | none => none
      | some encoded =>
        let decodedByteLength := base64DecodedByteLength encoded
        if decodedByteLength == 0 || decodedByteLength > MAX_DESIGN_IMAGE_BYTES then none
        else some (some trimmed)
  | some _ => none

structure CustomOrderData where
  name : String
  email : String
  productType : String
  colors : List String
  orientation : String
  stitchType : String
  /-- `none` = `undefined`, `some none` = `null`, `some (some s)` = data URI. -/
  designImage : Option (Option String)
deriving DecidableEq

/-- `ValidationResult` from the custom-order route. -/
inductive OrderValidation where
  | ok (payload : CustomOrderData) (captchaToken : Option String)
  | err (message : String)
deriving DecidableEq

def OrderValidation.isOk : OrderValidation → Bool
  | .ok _ _ => true
  | .err _ => false

/-- The per-color loop of `validatePayload`. -/
def validateColors : List Json → String ⊕ List String
  | [] => .inr []
  | color :: rest =>
    match color with
    | .str c =>
      let sanitizedColor := sanitizeInput c MAX_COLOR_LENGTH
      if sanitizedColor.isEmpty then .inl "Each color must be non-empty."
      else
        (match validateColors rest with
         | .inl e => .inl e
         | .inr parsed => .inr (sanitizedColor :: parsed))
    | _ => .inl "Each color must be a string."

/-- The captcha-token tail of `validatePayload`. -/
def validateCaptchaToken (raw : Option Json) : Option String ⊕ String :=
  match raw with
  | none => .inl none
  | some .null => .inl none
  | some (.str token) =>
    let trimmedCaptchaToken := jsTrim token
    if trimmedCaptchaToken.isEmpty ||
        trimmedCaptchaToken.length > MAX_CAPTCHA_TOKEN_LENGTH then
      .inr "Invalid captcha token."
    else .inl (some trimmedCaptchaToken)
  | some _ => .inr "Invalid captcha token."

/-- `validatePayload` from `src/app/api/custom-order/route.ts`. -/
def validatePayload (input : Json) : OrderValidation :=
  match input with
  | .obj body =>
    (match lookupField body "name", lookupField body "email",
           lookupField body "productType" with
     | some (.str name), some (.str email), some (.str productType) =>
       let trimmedName := jsTrim name
       let trimmedEmail := jsTrim email
       let trimmedProductType := jsTrim productType
       if trimmedName.isEmpty || trimmedEmail.isEmpty || trimmedProductType.isEmpty then
         .err "Missing required fields."
       else if !emailRegexTest trimmedEmail then
         .err "Invalid email format."
       else if trimmedName.length < 2 || trimmedName.length > MAX_NAME_LENGTH ||
           trimmedEmail.length > MAX_EMAIL_LENGTH ||
           trimmedProductType.length > MAX_PRODUCT_FIELD_LENGTH then
         .err "Invalid field length."
       else
         (match lookupField body "colors" with
          | some (.arr colors) =>
            if colors.isEmpty || colors.length > MAX_COLORS then
              .err "Invalid colors selection (1-10 colors required)."
            else
              (match validateColors colors with
               | .inl message => .err message
               | .inr sanitizedColors =>
                 let orientationValue :=
                   match lookupField body "orientation" with
                   | some (.str s) => s
                   | _ => ""
                 let stitchTypeValue :=
                   match lookupField body "stitchType" with
                   | some (.str s) => s
                   | _ => ""
                 let parsedDesignImage := parseDesignImage (lookupField body "designImage")
                 if (lookupField body "designImage").isSome && parsedDesignImage.isNone then
                   .err "Invalid design image payload."
                 else
                   (match validateCaptchaToken (lookupField body "captchaToken") with
                    | .inr message => .err message
                    | .inl captchaToken =>
                      .ok
                        { name := sanitizeInput trimmedName MAX_NAME_LENGTH,
                          email := sanitizeInput trimmedEmail MAX_EMAIL_LENGTH,
                          productType := sanitizeInput trimmedProductType MAX_PRODUCT_FIELD_LENGTH,
                          colors := sanitizedColors,
                          orientation := sanitizeInput orientationValue MAX_PRODUCT_FIELD_LENGTH,
                          stitchType := sanitizeInput stitchTypeValue MAX_PRODUCT_FIELD_LENGTH,
                          designImage := parsedDesignImage }
                        captchaToken))
          | _ => .err "Invalid colors selection (1-10 colors required).")
     | _, _, _ => .err "Missing required fields.")
  | _ => .err "Body must be a JSON object."

structure CustomOrderEnv where
  TURNSTILE_SECRET_KEY : Option String
  ORDER_EMAIL : Option String
  RESEND_API_KEY : Option String

structure CustomOrderRequest where
  xForwardedFor : Option String
  xRealIp : Option String
  contentTypeHeader : Option String
  contentLengthHeader : Option String
  body? : Option (List StreamItem)

/-- `getClientIp` from the custom-order route. -/
def getClientIp (request : CustomOrderRequest) : String :=
  match request.xForwardedFor with
  | some forwardedFor =>
    let firstHop := jsTrim (((jsSplitComma forwardedFor).headD ""))
    if !firstHop.isEmpty then jsSlice firstHop 100
    else realIpOrUnknown request
  | none => realIpOrUnknown request
where
  realIpOrUnknown (request : CustomOrderRequest) : String :=
    match request.xRealIp with
    | some realIp => if !(jsTrim realIp).isEmpty then jsSlice (jsTrim realIp) 100 else "unknown"
    | none => "unknown"

inductive CustomOrderResponse where
  | rateLimited
  | unsupportedMediaType
  | invalidContentLength
  | payloadTooLarge
  | invalidBody
  | invalidJson
  | validationFailed (message : String)
  | captchaRequired
  | captchaFailed
  | missingOrderEmail
  | missingResendApiKey
  | success
deriving DecidableEq

def customOrderStatus : CustomOrderResponse → Nat
  | .rateLimited => 429
  | .unsupportedMediaType => 415
  | .invalidContentLength => 400
  | .payloadTooLarge => 413
  | .invalidBody => 400
  | .invalidJson => 400
  | .validationFailed _ => 400
  | .captchaRequired => 400
  | .captchaFailed => 403
  | .missingOrderEmail => 500
  | .missingResendApiKey => 500
  | .success => 200

structure CustomOrderOutcome where
  response : CustomOrderResponse
  /-- Whether `readRequestBodyWithLimit` was invoked. -/
  bodyReadAttempted : Bool
deriving DecidableEq

/-- `getTurnstileSecret` from the custom-order route. -/
def getTurnstileSecret (env : CustomOrderEnv) : Option String :=
  match env.TURNSTILE_SECRET_KEY with
  | none => none
  | some s =>
    let secret := jsTrim s
    if secret.length > 0 then some secret else none

/-- `POST` from `src/app/api/custom-order/route.ts`.  `JSON.parse` and the
Turnstile verdict (`verifyTurnstileToken`, a fetch to Cloudflare) are
abstract collaborators; email delivery via Resend is assumed to succeed
once both credentials are configured, so `success` marks the handler
reaching the send-and-acknowledge tail. -/
def POST (parseJson : List Nat → Option Json)
    (turnstileVerified : String → String → String → Bool)
    (env : CustomOrderEnv) (request : CustomOrderRequest)
    (store : RateLimitStore) (now : Nat) : CustomOrderOutcome × RateLimitStore :=
  let ip := getClientIp request
  let rateLimited := rateLimit ("custom-order:" ++ ip) { requests := 5, window := 60000 }
    now store
  let store' := rateLimited.2
  if !rateLimited.1.allowed then
    ({ response := .rateLimited, bodyReadAttempted := false }, store')
  else
    let contentType := jsToLower (request.contentTypeHeader.getD "")
    if !jsStartsWith contentType "application/json" then
      ({ response := .unsupportedMediaType, bodyReadAttempted := false }, store')
    else
      let contentLength := parseContentLength request.contentLengthHeader
      if contentLength.invalid then
        ({ response := .invalidContentLength, bodyReadAttempted := false }, store')
      else if contentLength.bytes.any (fun b => b > MAX_REQUEST_BYTES) then
        ({ response := .payloadTooLarge, bodyReadAttempted := false }, store')
      else
        let response : CustomOrderResponse :=
          match readRequestBodyWithLimit request.body? MAX_REQUEST_BYTES with
          | .tooLarge => .payloadTooLarge
          | .invalid => .invalidBody
          | .ok rawBody =>
            match parseJson rawBody with
            | none => .invalidJson
            | some parsedBody =>
              match validatePayload parsedBody with
              | .err message => .validationFailed message
              | .ok _payload captchaToken =>
                let afterCaptcha : Option CustomOrderResponse :=
                  match getTurnstileSecret env with
                  | none => none
                  | some turnstileSecret =>
                    match captchaToken with
                    | none => some .captchaRequired
                    | some token =>
                      if !turnstileVerified token turnstileSecret ip then some .captchaFailed
                      else none
                match afterCaptcha with
                | some captchaResponse => captchaResponse
                | none =>
                  match env.ORDER_EMAIL with
                  | none => .missingOrderEmail
                  | some orderEmailRaw =>
                    if (jsTrim orderEmailRaw).isEmpty then .missingOrderEmail
                    else
                      match env.RESEND_API_KEY with
                      | none => .missingResendApiKey
                      | some apiKeyRaw =>
                        if (jsTrim apiKeyRaw).isEmpty then .missingResendApiKey
                        else .success
        ({ response := response, bodyReadAttempted := true }, store')

end CustomOrder

/-! ### Claim-side acceptance conditions

These predicates transcribe the wording of the specification claims (not
the code); the refinement theorems below compare them with the embedded
validators. -/

/-- Claim C3's per-item condition: an object with a string `priceId`
that after trimming is non-empty and matches `^price_[a-zA-Z0-9]+$`, and
a `quantity` that is an integer in `[1, 99]`. -/
def claimItemCondition (item : Json) : Bool :=
  match item with
  | .obj fields =>
    (match lookupField fields "priceId" with
     | some (.str priceId) =>
       !(jsTrim priceId).isEmpty && priceIdPatternTest (jsTrim priceId)
     | _ => false) &&
    (match lookupField fields "quantity" with
     | some (.num q) => q.den == 1 && decide (1 ≤ q) && decide (q ≤ (99 : ℚ))
     | _ => false)
  | _ => false

/-- Claim C3's acceptance condition as frozen: a JSON object whose
`items` field is a non-empty array of at most 50 items, each satisfying
`claimItemCondition`. -/
def claimBodyCondition (input : Json) : Bool :=
  match input with
  | .obj fields =>
    (match lookupField fields "items" with
     | some (.arr items) =>
       !items.isEmpty && decide (items.length ≤ 50) && items.all claimItemCondition
     | _ => false)
  | _ => false

/-- The additional condition the code imposes beyond claim C3: a
`customerEmail` field, when present, must be a string. -/
def emailFieldWellTyped (input : Json) : Bool :=
  match input with
  | .obj fields =>
    (match lookupField fields "customerEmail" with
     | none => true
     | some (.str _) => true
     | some _ => false)
  | _ => false

/-- The additional condition the code imposes beyond claim C3: a
`metadata` field, when present, must be a (non-null, non-array) object. -/
def metadataFieldWellTyped (input : Json) : Bool :=
  match input with
  | .obj fields =>
    (match lookupField fields "metadata" with
     | none => true
     | some (.obj _) => true
     | some _ => false)
  | _ => false

/-- The amended acceptance condition for claim C3. -/
def amendedBodyCondition (input : Json) : Bool :=
  claimBodyCondition input && emailFieldWellTyped input && metadataFieldWellTyped input

/-- A body satisfying claim C3's stated condition (its `items` are valid)
that the validator nevertheless rejects, because `customerEmail` is a
number. -/
def c3CounterexampleBody : Json :=
  .obj [("items", .arr [.obj [("priceId", .str "price_a"), ("quantity", .num 1)]]),
        ("customerEmail", .num 5)]

/-- A custom-order body whose `designImage` field is present but blank:
the pattern is violated, yet the validator accepts the payload and
normalizes the field to `null`. -/
def c9CounterexampleFields : List (String × Json) :=
  [("name", .str "ab"), ("email", .str "a@b.c"), ("productType", .str "hat"),
   ("colors", .arr [.str "red"]), ("designImage", .str "")]

/-- A custom-order body with a small valid embedded png data URI. -/
def c9WitnessFields : List (String × Json) :=
  [("name", .str "ab"), ("email", .str "a@b.c"), ("productType", .str "hat"),
   ("colors", .arr [.str "red"]), ("designImage", .str "data:image/png;base64,QUJD")]

/-- A custom-order body whose `name` is exactly two angle brackets: the
trimmed raw name has length 2, passing the length check, but
sanitization afterwards strips both characters. -/
def c10Fields : List (String × Json) :=
  [("name", .str "<>"), ("email", .str "a@b.c"), ("productType", .str "hat"),
   ("colors", .arr [.str "red"])]

/-! ## Theorems

### Claim C2 — fixed-window rate limiting -/

/-- Any run of `rateLimit` calls from a live (unexpired) entry at calls
within the window: each call increments the stored count, reports the
stored `resetAt`, and is allowed exactly while the incremented count does
not exceed the limit. -/
theorem rateLimitSeq_inWindow (identifier : String) (config : RateLimitConfig) :
    ∀ (times : List Nat) (store : RateLimitStore) (k R : Nat),
      store identifier = some { count := k, resetAt := R } →
      (∀ t ∈ times, ¬ R < t) →
      ∀ j r, ((rateLimitSeq identifier config times store).1.get? j = some r) →
        r.allowed = decide (k + j + 1 ≤ config.requests) ∧ r.resetAt = R ∧
          ∀ t, times.get? j = some t → t ≤ R
  | [], _store, _k, _R, _hstore, _htimes, j, r => by
    simp [rateLimitSeq]
  | now :: rest, store, k, R, hstore, htimes, j, r => by
    have hnow : ¬ R < now := htimes now (List.mem_cons_self _ _)
    have hstep : rateLimit identifier config now store =
        ({ allowed := decide (k + 1 ≤ config.requests),
           remaining := if k + 1 > config.requests then 0
             else (config.requests : Int) - (k + 1), resetAt := R },
         store.set identifier { count := k + 1, resetAt := R }) := by
      simp only [rateLimit, hstore, if_neg hnow]
      by_cases hgt : k + 1 > config.requests
      · simp [hgt, decide_eq_false (by omega : ¬ (k + 1 ≤ config.requests))]
      · simp [hgt, decide_eq_true (by omega : k + 1 ≤ config.requests)]
    match j with
    | 0 =>
      intro hget
      simp only [rateLimitSeq, hstep, List.get?] at hget
      cases hget
      refine ⟨by simp, by simp, ?_⟩
      intro t ht
      simp only [List.get?] at ht
      cases ht
      omega
    | j' + 1 =>
      intro hget
      simp only [rateLimitSeq, hstep, List.get?] at hget
      have hstore' : (store.set identifier { count := k + 1, resetAt := R }) identifier =
          some { count := k + 1, resetAt := R } := by
        simp [RateLimitStore.set]
      have ih := rateLimitSeq_inWindow identifier config rest
        (store.set identifier { count := k + 1, resetAt := R }) (k + 1) R hstore'
        (fun t ht => htimes t (List.mem_cons_of_mem _ ht)) j' r hget
      refine ⟨?_, ih.2.1, fun t ht => ih.2.2 t ht⟩
      rw [ih.1]
      congr 1
      simp only [eq_iff_iff]
      omega

/-- Claim C2: for every identifier and config, a call with no entry or an
expired window creates a fresh window (`resetAt = now + window`,
count 1, allowed); a call within a live window increments the count,
is allowed exactly while the count stays at most the limit, and reports
the stored `resetAt`; consequently, a run of calls inside one window
(first call on a fresh or expired entry, later calls at times at most
`t1 + window`) is allowed on calls `1..N` and denied from call `N+1` on,
every result reports `resetAt = t1 + window`, and each denied (indeed
each) result's `resetAt` is at least that call's `now`. -/
theorem rateLimit_fixed_window
    (config : RateLimitConfig) (identifier : String) (t1 : Nat) (rest : List Nat)
    (store0 : RateLimitStore)
    (hfresh : store0 identifier = none ∨
      ∃ e, store0 identifier = some e ∧ e.resetAt < t1)
    (hlimit : 1 ≤ config.requests)
    (hrest : ∀ t ∈ rest, t ≤ t1 + config.window) :
    (∀ (idr : String) (cfg : RateLimitConfig) (now : Nat) (store : RateLimitStore),
      store idr = none →
        rateLimit idr cfg now store =
          ({ allowed := true, remaining := (cfg.requests : Int) - 1,
             resetAt := now + cfg.window },
           store.set idr { count := 1, resetAt := now + cfg.window })) ∧
    (∀ (idr : String) (cfg : RateLimitConfig) (now : Nat) (store : RateLimitStore)
        (e : RateLimitEntry), store idr = some e → e.resetAt < now →
        rateLimit idr cfg now store =
          ({ allowed := true, remaining := (cfg.requests : Int) - 1,
             resetAt := now + cfg.window },
           store.set idr { count := 1, resetAt := now + cfg.window })) ∧
    (∀ (idr : String) (cfg : RateLimitConfig) (now : Nat) (store : RateLimitStore)
        (e : RateLimitEntry), store idr = some e → ¬ e.resetAt < now →
        (rateLimit idr cfg now store).1.allowed = decide (e.count + 1 ≤ cfg.requests) ∧
        (rateLimit idr cfg now store).1.resetAt = e.resetAt ∧
        (rateLimit idr cfg now store).2 idr =
          some { count := e.count + 1, resetAt := e.resetAt }) ∧
    (∀ j r, (rateLimitSeq identifier config (t1 :: rest) store0).1.get? j = some r →
        r.allowed = decide (j + 1 ≤ config.requests) ∧
        r.resetAt = t1 + config.window ∧
        ∀ t, (t1 :: rest).get? j = some t → t ≤ r.resetAt) := by
  have freshCall : ∀ (idr : String) (cfg : RateLimitConfig) (now : Nat)
      (store : RateLimitStore), store idr = none →
      rateLimit idr cfg now store =
        ({ allowed := true, remaining := (cfg.requests : Int) - 1,
           resetAt := now + cfg.window },
         store.set idr { count := 1, resetAt := now + cfg.window }) := by
    intro idr cfg now store h
    simp [rateLimit, h]
  have expiredCall : ∀ (idr : String) (cfg : RateLimitConfig) (now : Nat)
      (store : RateLimitStore) (e : RateLimitEntry), store idr = some e → e.resetAt < now →
      rateLimit idr cfg now store =
        ({ allowed := true, remaining := (cfg.requests : Int) - 1,
           resetAt := now + cfg.window },
         store.set idr { count := 1, resetAt := now + cfg.window }) := by
    intro idr cfg now store e h hex
    simp [rateLimit, h, hex]
  refine ⟨freshCall, expiredCall, ?_, ?_⟩
  · intro idr cfg now store e h hlive
    simp only [rateLimit, h, if_neg hlive]
    by_cases hgt : e.count + 1 > cfg.requests
    · simp [hgt, RateLimitStore.set, decide_eq_false (by omega : ¬ (e.count + 1 ≤ cfg.requests))]
    · simp [hgt, RateLimitStore.set, decide_eq_true (by omega : e.count + 1 ≤ cfg.requests)]
  · have hstep : rateLimit identifier config t1 store0 =
        ({ allowed := true, remaining := (config.requests : Int) - 1,
           resetAt := t1 + config.window },
         store0.set identifier { count := 1, resetAt := t1 + config.window }) := by
      rcases hfresh with h | ⟨e, h, hex⟩
      · exact freshCall identifier config t1 store0 h
      · exact expiredCall identifier config t1 store0 e h hex
    intro j r
    match j with
    | 0 =>
      intro hget
      simp only [rateLimitSeq, hstep, List.get?] at hget
      cases hget
      refine ⟨by simp [decide_eq_true hlimit], rfl, ?_⟩
      intro t ht
      simp only [List.get?] at ht
      cases ht
      show t1 ≤ t1 + config.window
      omega
    | j' + 1 =>
      intro hget
      simp only [rateLimitSeq, hstep, List.get?] at hget
      have hstore' : (store0.set identifier { count := 1, resetAt := t1 + config.window })
          identifier = some { count := 1, resetAt := t1 + config.window } := by
        simp [RateLimitStore.set]
      have ih := rateLimitSeq_inWindow identifier config rest
        (store0.set identifier { count := 1, resetAt := t1 + config.window }) 1
        (t1 + config.window) hstore'
        (fun t ht => by have := hrest t ht; omega) j' r hget
      refine ⟨?_, ih.2.1, fun t ht => by rw [ih.2.1]; exact ih.2.2 t ht⟩
      rw [ih.1]
      congr 1
      simp only [eq_iff_iff]
      omega

/-- Witness for claim C2: with limit 2 and window 100, three calls at
times 0, 10, 20 from an empty store are allowed, allowed, denied, and the
denied call's `resetAt` is 100. -/
theorem rateLimit_fixed_window_witness :
    ((fun _ => none : RateLimitStore) "custom-order:ip" = none ∨
      ∃ e, (fun _ => none : RateLimitStore) "custom-order:ip" = some e ∧ e.resetAt < 0) ∧
    1 ≤ (2 : Nat) ∧
    ((rateLimitSeq "custom-order:ip" { requests := 2, window := 100 } [0, 10, 20]
        (fun _ => none)).1.get? 2).map RateLimitResult.allowed = some false ∧
    ((rateLimitSeq "custom-order:ip" { requests := 2, window := 100 } [0, 10, 20]
        (fun _ => none)).1.get? 2).map RateLimitResult.resetAt = some 100 := by
  have hmain := rateLimit_fixed_window { requests := 2, window := 100 } "custom-order:ip" 0
    [10, 20] (fun _ => none) (Or.inl rfl) (by decide) (by decide)
  have hget : (rateLimitSeq "custom-order:ip" { requests := 2, window := 100 } [0, 10, 20]
      (fun _ => none)).1.get? 2 =
      some { allowed := false, remaining := 0, resetAt := 100 } := by
    simp [rateLimitSeq, rateLimit, RateLimitStore.set]
  have h2 := hmain.2.2.2 2 { allowed := false, remaining := 0, resetAt := 100 } hget
  refine ⟨Or.inl rfl, by decide, ?_, ?_⟩
  · rw [hget]
    show some ({ allowed := false, remaining := 0, resetAt := 100 } :
      RateLimitResult).allowed = some false
    exact congrArg some (h2.1.trans (by decide))
  · rw [hget]
    show some ({ allowed := false, remaining := 0, resetAt := 100 } :
      RateLimitResult).resetAt = some 100
    exact congrArg some (h2.2.1.trans (by decide))

/-! ### Claim C6 — bounded body reading -/

/-- Closed form of the read loop on a stream that never throws: it fails
with `tooLarge` exactly when the running byte counter would exceed the
ceiling, and otherwise returns every buffered chunk in order. -/
theorem readLoop_errFree (maxBytes : Nat) :
    ∀ (items : List StreamItem), items.all (fun i => !i.isErr) = true →
      ∀ (acc : List (List Nat)) (total : Nat), total ≤ maxBytes →
        readLoop maxBytes items acc total =
          if maxBytes < total + ((receivedChunks items).map List.length).sum
          then .tooLarge
          else .ok (acc.flatten ++ (receivedChunks items).flatten)
  | [], _hEF, acc, total, htot => by
    simp only [readLoop, receivedChunks, List.filterMap_nil, List.map_nil, List.sum_nil,
      Nat.add_zero, List.flatten_nil, List.append_nil]
    rw [if_neg (by omega)]
  | .err :: _rest, hEF, _acc, _total, _htot => by
    simp [StreamItem.isErr] at hEF
  | .empty :: rest, hEF, acc, total, htot => by
    simp only [List.all_cons, Bool.and_eq_true] at hEF
    simp only [readLoop, receivedChunks, List.filterMap_cons]
    exact readLoop_errFree maxBytes rest hEF.2 acc total htot
  | .chunk value :: rest, hEF, acc, total, htot => by
    simp only [List.all_cons, Bool.and_eq_true] at hEF
    simp only [readLoop, receivedChunks, List.filterMap_cons, List.map_cons, List.sum_cons]
    by_cases hover : total + value.length > maxBytes
    · rw [if_pos hover, if_pos (by omega)]
    · rw [if_neg hover]
      have ih := readLoop_errFree maxBytes rest hEF.2 (acc ++ [value])
        (total + value.length) (by omega)
      rw [ih]
      unfold receivedChunks
      by_cases hrest : maxBytes < total + value.length +
          ((rest.filterMap (fun i => match i with | .chunk v => some v | _ => none)).map
            List.length).sum
      · rw [if_pos hrest, if_pos (by omega)]
      · rw [if_neg hrest, if_neg (by omega)]
        simp

/-- Every value the byte counter takes while chunks are buffered stays
within the ceiling. -/
theorem readLoopTotals_le (maxBytes : Nat) :
    ∀ (items : List StreamItem) (total : Nat),
      ∀ t ∈ readLoopTotals maxBytes items total, t ≤ maxBytes
  | [], _total, t, ht => by simp [readLoopTotals] at ht
  | .err :: _rest, _total, t, ht => by simp [readLoopTotals] at ht
  | .empty :: rest, total, t, ht => by
    simp only [readLoopTotals] at ht
    exact readLoopTotals_le maxBytes rest total t ht
  | .chunk value :: rest, total, t, ht => by
    simp only [readLoopTotals] at ht
    by_cases hover : total + value.length > maxBytes
    · rw [if_pos hover] at ht
      simp at ht
    · rw [if_neg hover] at ht
      rcases List.mem_cons.1 ht with h | h
      · omega
      · exact readLoopTotals_le maxBytes rest (total + value.length) t h

/-- Claim C6: on a stream that delivers its chunks without a read error,
`readRequestBodyWithLimit` fails with the too-large result exactly when
the cumulative chunk byte count exceeds `maxBytes` (cancelling there:
the overflowing chunk is never buffered), the buffered byte counter never
exceeds `maxBytes` at any point of the read, a successful read returns
exactly the concatenation of all received chunks, and an absent body
yields the empty byte sequence. -/
theorem readRequestBodyWithLimit_spec (body? : Option (List StreamItem)) (maxBytes : Nat)
    (hEF : errFree body? = true) :
    (readRequestBodyWithLimit body? maxBytes =
      if maxBytes < streamByteCount body? then .tooLarge else .ok (streamBytes body?)) ∧
    (∀ items, body? = some items → ∀ t ∈ readLoopTotals maxBytes items 0, t ≤ maxBytes) ∧
    (body? = none → readRequestBodyWithLimit body? maxBytes = .ok []) := by
  refine ⟨?_, fun items _ t ht => readLoopTotals_le maxBytes items 0 t ht,
    fun h => by rw [h]; rfl⟩
  match body? with
  | none => simp [readRequestBodyWithLimit, streamByteCount, streamBytes]
  | some items =>
    simp only [errFree] at hEF
    simp only [readRequestBodyWithLimit, streamByteCount, streamBytes]
    rw [readLoop_errFree maxBytes items hEF [] 0 (Nat.zero_le _)]
    simp

/-- Witness for claim C6: a two-chunk stream of five bytes under a
ten-byte ceiling reads back exactly its concatenation. -/
theorem readRequestBodyWithLimit_spec_witness :
    errFree (some [.chunk [1, 2], .empty, .chunk [3]]) = true ∧
    readRequestBodyWithLimit (some [.chunk [1, 2], .empty, .chunk [3]]) 10 = .ok [1, 2, 3] := by
  refine ⟨by decide, ?_⟩
  have h := (readRequestBodyWithLimit_spec (some [.chunk [1, 2], .empty, .chunk [3]]) 10
    (by decide)).1
  rw [h]
  decide

/-! ### Claim C4 — origin allowlist gate -/

/-- Claim C4: with an empty configured allowlist the origin check allows
every request; with a non-empty allowlist it allows a request exactly
when its `Origin` header is present and exactly equals a configured
origin (so in particular a request without an `Origin` header is
denied); and a denied checkout request receives the 403 forbidden-origin
result before the request body is read. -/
theorem origin_allowlist_gate (envAllowedOrigin : Option String) (originHeader : Option String)
    (isValidUrl : String → Bool) (env : Checkout.CheckoutEnv)
    (request : Checkout.CheckoutRequest) :
    (parseAllowedOrigins envAllowedOrigin = [] →
      isOriginAllowed envAllowedOrigin originHeader = true) ∧
    (parseAllowedOrigins envAllowedOrigin ≠ [] →
      (isOriginAllowed envAllowedOrigin originHeader = true ↔
        ∃ o, originHeader = some o ∧ o ∈ parseAllowedOrigins envAllowedOrigin)) ∧
    (isOriginAllowed env.ALLOWED_ORIGIN request.originHeader = false →
      (Checkout.POST isValidUrl env request).result = .forbiddenOrigin ∧
      (Checkout.POST isValidUrl env request).bodyRead = false ∧
      Checkout.checkoutStatus (Checkout.POST isValidUrl env request).result = 403) := by
  refine ⟨?_, ?_, ?_⟩
  · intro h
    simp [isOriginAllowed, h]
  · intro h
    simp only [isOriginAllowed, List.isEmpty_iff, if_neg h]
    match originHeader with
    | none => simp
    | some o => simp
  · intro h
    have hpost : Checkout.POST isValidUrl env request =
        { result := .forbiddenOrigin, bodyRead := false } := by
      simp [Checkout.POST, h]
    rw [hpost]
    exact ⟨rfl, rfl, rfl⟩

/-- Witness for claim C4: with allowlist `https://a.example` configured,
a request without an `Origin` header is denied before the body is read. -/
theorem origin_allowlist_gate_witness :
    isOriginAllowed (some "https://a.example") none = false ∧
    (Checkout.POST (fun _ => true)
      { ALLOWED_ORIGIN := some "https://a.example", SUCCESS_URL := some "https://s.example",
        CANCEL_URL := some "https://c.example", ALLOWED_STRIPE_PRICE_IDS := none,
        ENFORCE_STRIPE_PRICE_ALLOWLIST := none, nodeEnvIsProduction := true,
        DEFAULT_CURRENCY := none }
      { originHeader := none, bodyJson := none, idempotencyKeyHeader := none }).result =
      .forbiddenOrigin := by
  have h := (origin_allowlist_gate (some "https://a.example") none (fun _ => true)
    { ALLOWED_ORIGIN := some "https://a.example", SUCCESS_URL := some "https://s.example",
      CANCEL_URL := some "https://c.example", ALLOWED_STRIPE_PRICE_IDS := none,
      ENFORCE_STRIPE_PRICE_ALLOWLIST := none, nodeEnvIsProduction := true,
      DEFAULT_CURRENCY := none }
    { originHeader := none, bodyJson := none, idempotencyKeyHeader := none }).2.2
  exact ⟨by decide, (h (by decide)).1⟩

/-! ### Claim C1 — webhook verification gate -/

/-- Claim C1: a webhook `POST` with no configured shared secret is a 500
misconfiguration response distinct from the signature errors; with a
secret but no `Stripe-Signature` header it is the distinct 400
missing-signature response; when the raw body bytes fail verification
against the configured secret the response is the 400 invalid-signature
response and no event routing occurs, regardless of what the body
contains; and an event is routed only when `constructEvent` succeeded on
the raw body, the header and the secret. -/
theorem webhook_verification_gate
    (constructEvent : List Nat → String → String → Option Webhook.StripeEvent)
    (env : Webhook.WebhookEnv) (request : Webhook.WebhookRequest) :
    (Webhook.getWebhookSecret env = none →
      Webhook.POST constructEvent env request =
        { response := .misconfigured, routedEvent := none, bodyReadAttempted := false }) ∧
    (∀ secret, Webhook.getWebhookSecret env = some secret → request.signatureHeader = none →
      Webhook.POST constructEvent env request =
        { response := .missingSignature, routedEvent := none, bodyReadAttempted := false }) ∧
    (∀ secret sig rawBody, Webhook.getWebhookSecret env = some secret →
      request.signatureHeader = some sig →
      (parseContentLength request.contentLengthHeader).invalid = false →
      (parseContentLength request.contentLengthHeader).bytes.any
        (fun b => b > Webhook.MAX_WEBHOOK_BODY_BYTES) = false →
      readRequestBodyWithLimit request.body? Webhook.MAX_WEBHOOK_BODY_BYTES = .ok rawBody →
      constructEvent rawBody sig secret = none →
      (Webhook.POST constructEvent env request).response = .invalidSignature ∧
      (Webhook.POST constructEvent env request).routedEvent = none) ∧
    (∀ e, (Webhook.POST constructEvent env request).routedEvent = some e →
      ∃ secret sig rawBody, Webhook.getWebhookSecret env = some secret ∧
        request.signatureHeader = some sig ∧
        readRequestBodyWithLimit request.body? Webhook.MAX_WEBHOOK_BODY_BYTES = .ok rawBody ∧
        constructEvent rawBody sig secret = some e ∧
        (Webhook.POST constructEvent env request).response = .received) ∧
    (Webhook.webhookStatus .misconfigured = 500 ∧ Webhook.webhookStatus .missingSignature = 400 ∧
      Webhook.webhookStatus .invalidSignature = 400 ∧
      Webhook.webhookMessage .misconfigured ≠ Webhook.webhookMessage .invalidSignature ∧
      Webhook.webhookMessage .missingSignature ≠ Webhook.webhookMessage .invalidSignature ∧
      Webhook.webhookMessage .misconfigured ≠ Webhook.webhookMessage .missingSignature) := by
  refine ⟨?_, ?_, ?_, ?_, by decide⟩
  · intro hsec
    simp [Webhook.POST, hsec]
  · intro secret hsec hsig
    simp [Webhook.POST, hsec, hsig]
  · intro secret sig rawBody hsec hsig hinv hbig hread hev
    simp [Webhook.POST, hsec, hsig, hinv, hbig, hread, hev]
  · intro e he
    rcases hsec : Webhook.getWebhookSecret env with _ | secret
    · simp [Webhook.POST, hsec] at he
    · rcases hsig : request.signatureHeader with _ | sig
      · simp [Webhook.POST, hsec, hsig] at he
      · by_cases hinv : (parseContentLength request.contentLengthHeader).invalid = true
        · simp [Webhook.POST, hsec, hsig, hinv] at he
        · by_cases hbig : (parseContentLength request.contentLengthHeader).bytes.any
              (fun b => b > Webhook.MAX_WEBHOOK_BODY_BYTES) = true
          · simp [Webhook.POST, hsec, hsig, hinv, hbig] at he
          · rcases hread : readRequestBodyWithLimit request.body?
                Webhook.MAX_WEBHOOK_BODY_BYTES with rawBody | _ | _
            · rcases hev : constructEvent rawBody sig secret with _ | event
              · simp [Webhook.POST, hsec, hsig, hinv, hbig, hread, hev] at he
              · have hresp : (Webhook.POST constructEvent env request).response = .received := by
                  simp [Webhook.POST, hsec, hsig, hinv, hbig, hread, hev]
                simp [Webhook.POST, hsec, hsig, hinv, hbig, hread, hev] at he
                exact ⟨secret, sig, rawBody, rfl, rfl, rfl, by rw [hev, he], hresp⟩
            · simp [Webhook.POST, hsec, hsig, hinv, hbig, hread] at he
            · simp [Webhook.POST, hsec, hsig, hinv, hbig, hread] at he

/-- Witness for claim C1: with a configured secret, a present signature
header and a verifier that rejects, the response is the invalid-signature
error and nothing is routed. -/
theorem webhook_verification_gate_witness :
    Webhook.getWebhookSecret { STRIPE_WEBHOOK_SECRET := some "whsec_x" } = some "whsec_x" ∧
    (Webhook.POST (fun _ _ _ => none) { STRIPE_WEBHOOK_SECRET := some "whsec_x" }
      { signatureHeader := some "t=1,v1=bad", contentLengthHeader := none,
        body? := some [.chunk [123, 125]] }).response = .invalidSignature ∧
    (Webhook.POST (fun _ _ _ => none) { STRIPE_WEBHOOK_SECRET := some "whsec_x" }
      { signatureHeader := some "t=1,v1=bad", contentLengthHeader := none,
        body? := some [.chunk [123, 125]] }).routedEvent = none := by
  have h := (webhook_verification_gate (fun _ _ _ => none)
    { STRIPE_WEBHOOK_SECRET := some "whsec_x" }
    { signatureHeader := some "t=1,v1=bad", contentLengthHeader := none,
      body? := some [.chunk [123, 125]] }).2.2.1 "whsec_x" "t=1,v1=bad" [123, 125]
    (by decide) rfl rfl rfl (by decide) rfl
  exact ⟨by decide, h.1, h.2⟩

/-! ### Claim C5 — Content-Length handling -/

/-- A header that parses to a byte count is not flagged invalid. -/
theorem parseContentLength_bytes_some (header : Option String) (b : Nat)
    (hb : (parseContentLength header).bytes = some b) :
    (parseContentLength header).invalid = false := by
  match header with
  | none => rfl
  | some v =>
    simp only [parseContentLength] at hb ⊢
    by_cases h1 : ((!allDigits (jsTrim v)) = true)
    · rw [if_pos h1] at hb
      simp at hb
    · rw [if_neg h1] at hb ⊢
      by_cases h2 : digitsToNat (jsTrim v) > maxSafeInteger
      · rw [if_pos h2] at hb
        simp at hb
      · rw [if_neg h2]

/-- Claim C5: for the webhook and the custom-order endpoints (once the
stages before the length check have passed: secret and signature for the
webhook; rate limit and media type for the custom order), a
`Content-Length` header that is not a digit string after trimming or
whose value is not a safe integer yields the invalid-header 400 response
(distinct from the 413 too-large response) without reading the body; a
well-formed value above the endpoint's ceiling yields the 413 response
without reading the body; and an absent header proceeds into the bounded
body read. -/
theorem contentLength_handling :
    (∀ v, (parseContentLength (some v)).invalid =
      (!allDigits (jsTrim v) || decide (digitsToNat (jsTrim v) > maxSafeInteger))) ∧
    (parseContentLength none = { bytes := none, invalid := false }) ∧
    (∀ (constructEvent : List Nat → String → String → Option Webhook.StripeEvent)
        (env : Webhook.WebhookEnv) (request : Webhook.WebhookRequest) (secret sig : String),
      Webhook.getWebhookSecret env = some secret → request.signatureHeader = some sig →
      ((parseContentLength request.contentLengthHeader).invalid = true →
        Webhook.POST constructEvent env request =
          { response := .invalidContentLength, routedEvent := none,
            bodyReadAttempted := false } ∧
        Webhook.webhookStatus .invalidContentLength = 400 ∧
        (Webhook.WebhookResponse.invalidContentLength ≠ .payloadTooLarge) ∧
        Webhook.webhookMessage .invalidContentLength ≠ Webhook.webhookMessage .payloadTooLarge) ∧
      (∀ b, (parseContentLength request.contentLengthHeader).bytes = some b →
        b > Webhook.MAX_WEBHOOK_BODY_BYTES →
        Webhook.POST constructEvent env request =
          { response := .payloadTooLarge, routedEvent := none, bodyReadAttempted := false } ∧
        Webhook.webhookStatus .payloadTooLarge = 413) ∧
      (request.contentLengthHeader = none →
        (Webhook.POST constructEvent env request).bodyReadAttempted = true)) ∧
    (∀ (parseJson : List Nat → Option Json)
        (turnstileVerified : String → String → String → Bool)
        (env : CustomOrder.CustomOrderEnv) (request : CustomOrder.CustomOrderRequest)
        (store : RateLimitStore) (now : Nat),
      (rateLimit ("custom-order:" ++ CustomOrder.getClientIp request)
        { requests := 5, window := 60000 } now store).1.allowed = true →
      jsStartsWith (jsToLower (request.contentTypeHeader.getD "")) "application/json" = true →
      ((parseContentLength request.contentLengthHeader).invalid = true →
        (CustomOrder.POST parseJson turnstileVerified env request store now).1 =
          { response := .invalidContentLength, bodyReadAttempted := false } ∧
        CustomOrder.customOrderStatus .invalidContentLength = 400 ∧
        (CustomOrder.CustomOrderResponse.invalidContentLength ≠ .payloadTooLarge)) ∧
      (∀ b, (parseContentLength request.contentLengthHeader).bytes = some b →
        b > CustomOrder.MAX_REQUEST_BYTES →
        (CustomOrder.POST parseJson turnstileVerified env request store now).1 =
          { response := .payloadTooLarge, bodyReadAttempted := false } ∧
        CustomOrder.customOrderStatus .payloadTooLarge = 413) ∧
      (request.contentLengthHeader = none →
        (CustomOrder.POST parseJson turnstileVerified env request store now).1.bodyReadAttempted =
          true)) := by
  refine ⟨?_, rfl, ?_, ?_⟩
  · intro v
    simp only [parseContentLength]
    by_cases hd : allDigits (jsTrim v) = true
    · simp only [hd, Bool.not_true, Bool.false_or]
      by_cases hbig : digitsToNat (jsTrim v) > maxSafeInteger
      · rw [if_neg (by simp [hd]), if_pos hbig]
        simp [hbig]
      · rw [if_neg (by simp [hd]), if_neg hbig]
        simp [hbig]
    · rw [if_pos (by simp [Bool.not_eq_true] at hd ⊢; simp [hd])]
      simp [Bool.not_eq_true] at hd
      simp [hd]
  · intro constructEvent env request secret sig hsec hsig
    refine ⟨?_, ?_, ?_⟩
    · intro hinv
      refine ⟨by simp [Webhook.POST, hsec, hsig, hinv], rfl, by decide, by decide⟩
    · intro b hb hgt
      have hinv := parseContentLength_bytes_some request.contentLengthHeader b hb
      have hany : (parseContentLength request.contentLengthHeader).bytes.any
          (fun x => x > Webhook.MAX_WEBHOOK_BODY_BYTES) = true := by
        rw [hb]
        simpa using hgt
      exact ⟨by simp [Webhook.POST, hsec, hsig, hinv, hany], rfl⟩
    · intro hcl
      have hinv : (parseContentLength request.contentLengthHeader).invalid = false := by
        rw [hcl]
        rfl
      have hany : (parseContentLength request.contentLengthHeader).bytes.any
          (fun x => x > Webhook.MAX_WEBHOOK_BODY_BYTES) = false := by
        rw [hcl]
        rfl
      simp [Webhook.POST, hsec, hsig, hinv, hany]
  · intro parseJson turnstileVerified env request store now hallowed hct
    refine ⟨?_, ?_, ?_⟩
    · intro hinv
      refine ⟨by simp [CustomOrder.POST, hallowed, hct, hinv], rfl, by decide⟩
    · intro b hb hgt
      have hinv := parseContentLength_bytes_some request.contentLengthHeader b hb
      have hany : (parseContentLength request.contentLengthHeader).bytes.any
          (fun x => x > CustomOrder.MAX_REQUEST_BYTES) = true := by
        rw [hb]
        simpa using hgt
      exact ⟨by simp [CustomOrder.POST, hallowed, hct, hinv, hany], rfl⟩
    · intro hcl
      have hinv : (parseContentLength request.contentLengthHeader).invalid = false := by
        rw [hcl]
        rfl
      have hany : (parseContentLength request.contentLengthHeader).bytes.any
          (fun x => x > CustomOrder.MAX_REQUEST_BYTES) = false := by
        rw [hcl]
        rfl
      simp [CustomOrder.POST, hallowed, hct, hinv, hany]

/-- Witness for claim C5: a webhook request declaring a 300 KiB body is
rejected as too large without the body being read, and a custom-order
request with a non-numeric length header gets the invalid-header
response. -/
theorem contentLength_handling_witness :
    Webhook.getWebhookSecret { STRIPE_WEBHOOK_SECRET := some "whsec_x" } = some "whsec_x" ∧
    (parseContentLength (some "307200")).bytes = some 307200 ∧
    (Webhook.POST (fun _ _ _ => none) { STRIPE_WEBHOOK_SECRET := some "whsec_x" }
      { signatureHeader := some "t=1", contentLengthHeader := some "307200",
        body? := some [.chunk [1]] }) =
      { response := .payloadTooLarge, routedEvent := none, bodyReadAttempted := false } ∧
    (parseContentLength (some "12abc")).invalid = true := by
  have h := ((contentLength_handling).2.2.1 (fun _ _ _ => none)
    { STRIPE_WEBHOOK_SECRET := some "whsec_x" }
    { signatureHeader := some "t=1", contentLengthHeader := some "307200",
      body? := some [.chunk [1]] } "whsec_x" "t=1" (by decide) rfl).2.1 307200
    (by decide) (by decide)
  exact ⟨by decide, by decide, h.1, by decide⟩

/-! ### Claim C7 — price allowlist enforcement -/

/-- Claim C7: for a checkout request that passed the origin gate, URL
configuration, JSON parsing and payload validation: with enforcement
enabled and an empty allowed set the request is rejected with the 500
misconfiguration result (distinct from the 400 client errors); with
enforcement enabled and some item's price id outside the allowed set it
is rejected with the 400 invalid-items result; with enforcement disabled
the request always proceeds to session creation, the violating ids (when
an allow set is configured) being recorded for logging only. -/
theorem price_allowlist_enforcement
    (isValidUrl : String → Bool) (env : Checkout.CheckoutEnv)
    (request : Checkout.CheckoutRequest) (body : Json) (payload : Checkout.CheckoutPayload)
    (su cu : String)
    (hOrigin : isOriginAllowed env.ALLOWED_ORIGIN request.originHeader = true)
    (hSu : Checkout.getRequiredUrl isValidUrl env.SUCCESS_URL = some su)
    (hCu : Checkout.getRequiredUrl isValidUrl env.CANCEL_URL = some cu)
    (hBody : request.bodyJson = some body)
    (hVal : Checkout.validatePayload body = .ok payload) :
    ((Checkout.envAllowlist env).enforce = true →
      (Checkout.envAllowlist env).allowedPriceIds = [] →
      (Checkout.POST isValidUrl env request).result = .allowlistMisconfigured ∧
      Checkout.checkoutStatus .allowlistMisconfigured = 500 ∧
      Checkout.checkoutStatus .invalidItems = 400) ∧
    ((Checkout.envAllowlist env).enforce = true →
      (Checkout.envAllowlist env).allowedPriceIds ≠ [] →
      ((payload.items.map (fun item => item.priceId)).filter
        (fun priceId => !(Checkout.envAllowlist env).allowedPriceIds.contains priceId)) ≠ [] →
      (Checkout.POST isValidUrl env request).result = .invalidItems ∧
      Checkout.checkoutStatus .invalidItems = 400) ∧
    ((Checkout.envAllowlist env).enforce = false →
      (Checkout.POST isValidUrl env request).result =
        .createSession (Checkout.POST.buildSession env request payload
          (if !(Checkout.envAllowlist env).allowedPriceIds.isEmpty then
            (payload.items.map (fun item => item.priceId)).filter
              (fun priceId => !(Checkout.envAllowlist env).allowedPriceIds.contains priceId)
          else []))) := by
  refine ⟨?_, ?_, ?_⟩
  · intro henf hempty
    have h1 : (Checkout.envAllowlist env).allowedPriceIds.isEmpty = true := by
      simp [hempty]
    exact ⟨by simp [Checkout.POST, hOrigin, hSu, hCu, hBody, hVal, henf, h1], rfl, rfl⟩
  · intro henf hnonempty hviol
    have h1 : (Checkout.envAllowlist env).allowedPriceIds.isEmpty = false := by
      simpa [List.isEmpty_iff] using hnonempty
    have h2 : ∃ x ∈ payload.items,
        x.priceId ∉ (Checkout.envAllowlist env).allowedPriceIds := by
      rcases List.exists_mem_of_ne_nil _ hviol with ⟨a, ha⟩
      have hfa := List.of_mem_filter ha
      have hmem := List.mem_of_mem_filter ha
      rcases List.mem_map.1 hmem with ⟨item, hitem, hia⟩
      refine ⟨item, hitem, ?_⟩
      rw [hia]
      simpa using hfa
    exact ⟨by simp [Checkout.POST, hOrigin, hSu, hCu, hBody, hVal, henf, h1, h2], rfl⟩
  · intro henf
    simp [Checkout.POST, hOrigin, hSu, hCu, hBody, hVal, henf]

/-- Witness for claim C7: with enforcement on and no configured price
ids, a validated one-item cart is rejected as a server
misconfiguration. -/
theorem price_allowlist_enforcement_witness :
    (Checkout.envAllowlist
      { ALLOWED_ORIGIN := none, SUCCESS_URL := some "https://s.example",
        CANCEL_URL := some "https://c.example", ALLOWED_STRIPE_PRICE_IDS := none,
        ENFORCE_STRIPE_PRICE_ALLOWLIST := some "true", nodeEnvIsProduction := false,
        DEFAULT_CURRENCY := none }).enforce = true ∧
    (Checkout.envAllowlist
      { ALLOWED_ORIGIN := none, SUCCESS_URL := some "https://s.example",
        CANCEL_URL := some "https://c.example", ALLOWED_STRIPE_PRICE_IDS := none,
        ENFORCE_STRIPE_PRICE_ALLOWLIST := some "true", nodeEnvIsProduction := false,
        DEFAULT_CURRENCY := none }).allowedPriceIds = [] ∧
    (Checkout.POST (fun _ => true)
      { ALLOWED_ORIGIN := none, SUCCESS_URL := some "https://s.example",
        CANCEL_URL := some "https://c.example", ALLOWED_STRIPE_PRICE_IDS := none,
        ENFORCE_STRIPE_PRICE_ALLOWLIST := some "true", nodeEnvIsProduction := false,
        DEFAULT_CURRENCY := none }
      { originHeader := none,
        bodyJson := some (.obj [("items",
          .arr [.obj [("priceId", .str "price_a"), ("quantity", .num 1)]])]),
        idempotencyKeyHeader := none }).result = .allowlistMisconfigured := by
  have h := (price_allowlist_enforcement (fun _ => true)
    { ALLOWED_ORIGIN := none, SUCCESS_URL := some "https://s.example",
      CANCEL_URL := some "https://c.example", ALLOWED_STRIPE_PRICE_IDS := none,
      ENFORCE_STRIPE_PRICE_ALLOWLIST := some "true", nodeEnvIsProduction := false,
      DEFAULT_CURRENCY := none }
    { originHeader := none,
      bodyJson := some (.obj [("items",
        .arr [.obj [("priceId", .str "price_a"), ("quantity", .num 1)]])]),
      idempotencyKeyHeader := none }
    (.obj [("items", .arr [.obj [("priceId", .str "price_a"), ("quantity", .num 1)]])])
    { items := [{ priceId := "price_a", quantity := 1 }], customerEmail := none,
      metadata := none }
    "https://s.example" "https://c.example" rfl rfl rfl rfl rfl).1 rfl rfl
  exact ⟨rfl, rfl, h.1⟩

/-! ### Claim C8 — metadata sanitization -/

/-- `setEntry` adds at most one entry. -/
theorem setEntry_length (m : List (String × String)) (key value : String) :
    (Checkout.setEntry m key value).length ≤ m.length + 1 := by
  unfold Checkout.setEntry
  split
  · simp
  · simp

/-- `setEntry` preserves entry well-formedness. -/
theorem setEntry_wellFormed (m : List (String × String)) (key value : String)
    (hm : ∀ kv ∈ m, Checkout.metadataEntryWellFormed kv)
    (hkv : Checkout.metadataEntryWellFormed (key, value)) :
    ∀ kv ∈ Checkout.setEntry m key value, Checkout.metadataEntryWellFormed kv := by
  intro kv hkvmem
  unfold Checkout.setEntry at hkvmem
  split at hkvmem
  · rcases List.mem_map.1 hkvmem with ⟨p, hp, hpe⟩
    by_cases hk : p.1 = key
    · rw [if_pos hk] at hpe
      have hpw := hm p hp
      subst hpe
      exact ⟨hpw.1, hpw.2.1, hkv.2.2⟩
    · rw [if_neg hk] at hpe
      subst hpe
      exact hm p hp
  · rcases List.mem_append.1 hkvmem with h | h
    · exact hm kv h
    · simp at h
      subst h
      exact hkv

/-- Overwriting an existing key makes its lookup yield the new value. -/
theorem lookupEntry_overwrite (key value : String) :
    ∀ (m : List (String × String)), m.any (fun p => p.1 = key) = true →
      Checkout.lookupEntry (m.map (fun p => if p.1 = key then (p.1, value) else p)) key =
        some value
  | [], h => by simp at h
  | p :: rest, h => by
    by_cases hk : p.1 = key
    · rw [List.map_cons, if_pos hk]
      simp [Checkout.lookupEntry, hk]
    · simp only [List.any_cons, Bool.or_eq_true, decide_eq_true_eq] at h
      rcases h with h | h
      · exact absurd h hk
      · rw [List.map_cons, if_neg hk]
        simp only [Checkout.lookupEntry]
        rw [if_neg hk]
        exact lookupEntry_overwrite key value rest (by simpa using h)

/-- Appending a fresh key makes its lookup yield the appended value. -/
theorem lookupEntry_append_fresh (key value : String) :
    ∀ (m : List (String × String)), m.any (fun p => p.1 = key) = false →
      Checkout.lookupEntry (m ++ [(key, value)]) key = some value
  | [], _ => by simp [Checkout.lookupEntry]
  | p :: rest, h => by
    simp only [List.any_cons, Bool.or_eq_false_iff, decide_eq_false_iff_not] at h
    simp only [List.cons_append, Checkout.lookupEntry]
    rw [if_neg h.1]
    exact lookupEntry_append_fresh key value rest h.2

/-- A successful lookup exhibits a member of the object. -/
theorem lookupEntry_mem (key value : String) :
    ∀ (m : List (String × String)), Checkout.lookupEntry m key = some value →
      (key, value) ∈ m
  | [], h => by simp [Checkout.lookupEntry] at h
  | p :: rest, h => by
    obtain ⟨pk, pv⟩ := p
    by_cases hk : pk = key
    · simp only [Checkout.lookupEntry, if_pos hk] at h
      cases h
      subst hk
      exact List.mem_cons_self _ _
    · simp only [Checkout.lookupEntry, if_neg hk] at h
      exact List.mem_cons_of_mem _ (lookupEntry_mem key value rest h)

/-- After `setEntry m key value`, reading `key` yields `value`. -/
theorem lookupEntry_setEntry (m : List (String × String)) (key value : String) :
    Checkout.lookupEntry (Checkout.setEntry m key value) key = some value := by
  unfold Checkout.setEntry
  by_cases hany : m.any (fun p => p.1 = key) = true
  · rw [if_pos hany]
    exact lookupEntry_overwrite key value m hany
  · rw [if_neg hany]
    exact lookupEntry_append_fresh key value m (Bool.eq_false_iff.mpr hany)

/-- Keys produced by `sanitizeMetadataKey` paired with truncated values
are well-formed entries. -/
theorem sanitizeMetadataKey_wellFormed (rawKey rawValue : String) :
    Checkout.metadataEntryWellFormed (Checkout.sanitizeMetadataKey rawKey,
      jsSlice rawValue Checkout.MAX_METADATA_VALUE_LENGTH) := by
  refine ⟨?_, ?_, ?_⟩
  · show ((((rawKey.toList.map (fun c => if isWordChar c then c else '_'))).take
      Checkout.MAX_METADATA_KEY_LENGTH).all isWordChar) = true
    refine List.all_eq_true.2 ?_
    intro c hc
    have hc' := List.mem_of_mem_take hc
    rcases List.mem_map.1 hc' with ⟨c0, _, hc0⟩
    by_cases h : isWordChar c0 = true
    · rw [if_pos h] at hc0
      subst hc0
      exact h
    · rw [if_neg h] at hc0
      subst hc0
      decide
  · show (((rawKey.toList.map (fun c => if isWordChar c then c else '_'))).take
      Checkout.MAX_METADATA_KEY_LENGTH).length ≤ Checkout.MAX_METADATA_KEY_LENGTH
    simpa using List.length_take_le _ _
  · show (rawValue.toList.take Checkout.MAX_METADATA_VALUE_LENGTH).length ≤
      Checkout.MAX_METADATA_VALUE_LENGTH
    simpa using List.length_take_le _ _

/-- The metadata loop keeps every entry well-formed and at most 49
entries. -/
theorem sanitizeMetadataLoop_invariant :
    ∀ (entries : List (String × Json)) (acc : List (String × String)),
      (∀ kv ∈ acc, Checkout.metadataEntryWellFormed kv) →
      acc.length ≤ Checkout.MAX_METADATA_ENTRIES - 1 →
      (∀ kv ∈ Checkout.sanitizeMetadataLoop entries acc,
        Checkout.metadataEntryWellFormed kv) ∧
      (Checkout.sanitizeMetadataLoop entries acc).length ≤ Checkout.MAX_METADATA_ENTRIES - 1
  | [], acc, hacc, hlen => ⟨hacc, hlen⟩
  | (rawKey, rawValue) :: rest, acc, hacc, hlen => by
    simp only [Checkout.sanitizeMetadataLoop]
    by_cases hfull : acc.length ≥ Checkout.MAX_METADATA_ENTRIES - 1
    · rw [if_pos hfull]
      exact ⟨hacc, hlen⟩
    · rw [if_neg hfull]
      have hstep : ∀ v : Json,
          (∀ kv ∈ (if (Checkout.sanitizeMetadataKey rawKey).isEmpty ||
                Checkout.sanitizeMetadataKey rawKey = "source" then
              Checkout.sanitizeMetadataLoop rest acc
            else
              Checkout.sanitizeMetadataLoop rest
                (Checkout.setEntry acc (Checkout.sanitizeMetadataKey rawKey)
                  (jsSlice (Checkout.jsonToStringJS v) Checkout.MAX_METADATA_VALUE_LENGTH))),
            Checkout.metadataEntryWellFormed kv) ∧
          (if (Checkout.sanitizeMetadataKey rawKey).isEmpty ||
                Checkout.sanitizeMetadataKey rawKey = "source" then
              Checkout.sanitizeMetadataLoop rest acc
            else
              Checkout.sanitizeMetadataLoop rest
                (Checkout.setEntry acc (Checkout.sanitizeMetadataKey rawKey)
                  (jsSlice (Checkout.jsonToStringJS v)
                    Checkout.MAX_METADATA_VALUE_LENGTH))).length ≤
            Checkout.MAX_METADATA_ENTRIES - 1 := by
        intro v
        split
        · exact sanitizeMetadataLoop_invariant rest acc hacc (by omega)
        · refine sanitizeMetadataLoop_invariant rest _ ?_ ?_
          · exact setEntry_wellFormed acc _ _ hacc
              (sanitizeMetadataKey_wellFormed rawKey (Checkout.jsonToStringJS v))
          · have := setEntry_length acc (Checkout.sanitizeMetadataKey rawKey)
              (jsSlice (Checkout.jsonToStringJS v) Checkout.MAX_METADATA_VALUE_LENGTH)
            omega
      match rawValue with
      | .null => exact sanitizeMetadataLoop_invariant rest acc hacc hlen
      | .bool b => exact hstep (.bool b)
      | .num q => exact hstep (.num q)
      | .str s => exact hstep (.str s)
      | .arr xs => exact hstep (.arr xs)
      | .obj fs => exact hstep (.obj fs)

/-- Claim C8: for every client-supplied metadata object, the sanitized
map always binds `source` to `framer` (whatever the client sent for that
key), every key is made of `[A-Za-z0-9_]` characters and is at most 40
long, every value is at most 500 long, and the map has at most 50
entries including the forced `source` entry. -/
theorem sanitizeMetadata_spec (input : Option (List (String × Json))) :
    Checkout.lookupEntry (Checkout.sanitizeMetadata input) "source" = some "framer" ∧
    (∀ kv ∈ Checkout.sanitizeMetadata input, Checkout.metadataEntryWellFormed kv) ∧
    (Checkout.sanitizeMetadata input).length ≤ Checkout.MAX_METADATA_ENTRIES := by
  have hbase : ∀ kv ∈ ([] : List (String × String)), Checkout.metadataEntryWellFormed kv := by
    intro kv h
    simp at h
  rcases input with _ | entries
  · refine ⟨lookupEntry_setEntry _ "source" "framer", ?_, ?_⟩
    · exact setEntry_wellFormed _ "source" "framer" hbase ⟨by decide, by decide, by decide⟩
    · have hse : (Checkout.setEntry ([] : List (String × String)) "source" "framer").length ≤
          1 := by
        simpa using setEntry_length [] "source" "framer"
      have hmax : Checkout.MAX_METADATA_ENTRIES = 50 := rfl
      simp only [Checkout.sanitizeMetadata]
      omega
  · have hloop := sanitizeMetadataLoop_invariant entries [] hbase (by simp)
    refine ⟨lookupEntry_setEntry _ "source" "framer", ?_, ?_⟩
    · exact setEntry_wellFormed _ "source" "framer" hloop.1 ⟨by decide, by decide, by decide⟩
    · have hse := setEntry_length (Checkout.sanitizeMetadataLoop entries []) "source" "framer"
      have hlen := hloop.2
      have hmax : Checkout.MAX_METADATA_ENTRIES = 50 := rfl
      simp only [Checkout.sanitizeMetadata]
      omega

/-- Witness for claim C8: a metadata object that tries to spoof `source`
still comes out with `source = framer`, and that forced entry (a member
of the sanitized map) is well-formed. -/
theorem sanitizeMetadata_spec_witness :
    Checkout.lookupEntry (Checkout.sanitizeMetadata
      (some [("source", Json.str "evil")])) "source" = some "framer" ∧
    ("source", "framer") ∈ Checkout.sanitizeMetadata (some [("source", Json.str "evil")]) ∧
    Checkout.metadataEntryWellFormed ("source", "framer") := by
  have h := sanitizeMetadata_spec (some [("source", Json.str "evil")])
  have hmem := lookupEntry_mem "source" "framer" _ h.1
  exact ⟨h.1, hmem, h.2.1 ("source", "framer") hmem⟩


/-! ### Claim C3 — checkout payload validation -/

/-- `validateStripePriceId` succeeds exactly on strings whose trim is
non-empty and matches `^price_[a-zA-Z0-9]+$`. -/
theorem validateStripePriceId_eq_none (s : String) :
    validateStripePriceId s = none ↔
      ((jsTrim s).isEmpty = false ∧ priceIdPatternTest (jsTrim s) = true) := by
  unfold validateStripePriceId
  by_cases h1 : (jsTrim s).isEmpty
  · simp [h1]
  · by_cases h2 : priceIdPatternTest (jsTrim s)
    · simp [h1, h2]
    · simp [h1, h2]

/-- The quantity guard agrees with the claim's integer-in-`[1,99]`
condition. -/
theorem quantityOk_eq (q : ℚ) :
    Checkout.quantityOk q = (q.den == 1 && decide (1 ≤ q) && decide (q ≤ (99 : ℚ))) := by
  unfold Checkout.quantityOk
  norm_num [Checkout.MAX_QUANTITY]

/-- The item loop succeeds exactly when every item satisfies the claim's
per-item condition. -/
theorem validateItems_isRight : ∀ (l : List Json) (i : Nat),
    (Checkout.validateItems l i).isRight = l.all claimItemCondition
  | [], _ => rfl
  | item :: rest, i => by
    rw [List.all_cons]
    match item with
    | .null => simp [Checkout.validateItems, claimItemCondition]
    | .bool b => simp [Checkout.validateItems, claimItemCondition]
    | .num q => simp [Checkout.validateItems, claimItemCondition]
    | .str s => simp [Checkout.validateItems, claimItemCondition]
    | .arr xs => simp [Checkout.validateItems, claimItemCondition]
    | .obj fields =>
      simp only [Checkout.validateItems, claimItemCondition]
      rcases hp : lookupField fields "priceId" with _ | pv
      · simp [hp]
      · match pv with
        | .null => simp [hp]
        | .bool _ => simp [hp]
        | .num _ => simp [hp]
        | .arr _ => simp [hp]
        | .obj _ => simp [hp]
        | .str priceId =>
          rcases hv : validateStripePriceId priceId with _ | msg
          · have hA := (validateStripePriceId_eq_none priceId).1 hv
            rcases hq : lookupField fields "quantity" with _ | qv
            · simp [hp, hv, hq, hA.1, hA.2]
            · match qv with
              | .null => simp [hp, hv, hq, hA.1, hA.2]
              | .bool _ => simp [hp, hv, hq, hA.1, hA.2]
              | .str _ => simp [hp, hv, hq, hA.1, hA.2]
              | .arr _ => simp [hp, hv, hq, hA.1, hA.2]
              | .obj _ => simp [hp, hv, hq, hA.1, hA.2]
              | .num q =>
                have hB := (quantityOk_eq q).symm
                cases hqo : Checkout.quantityOk q
                · simp [hp, hv, hq, hA.1, hA.2, hB, hqo]
                · rcases hsum : Checkout.validateItems rest (i + 1) with e | parsed
                  · have hrec := validateItems_isRight rest (i + 1)
                    rw [hsum] at hrec
                    simp [hp, hv, hq, hA.1, hA.2, hB, hqo, hsum, ← hrec]
                  · have hrec := validateItems_isRight rest (i + 1)
                    rw [hsum] at hrec
                    simp [hp, hv, hq, hA.1, hA.2, hB, hqo, hsum, ← hrec]
          · have hA : (!(jsTrim priceId).isEmpty && priceIdPatternTest (jsTrim priceId)) =
                false := by
              by_cases h1 : (jsTrim priceId).isEmpty
              · simp [h1]
              · by_cases h2 : priceIdPatternTest (jsTrim priceId) = true
                · exfalso
                  have := (validateStripePriceId_eq_none priceId).2
                    ⟨by simpa using h1, h2⟩
                  rw [hv] at this
                  cases this
                · simp [h2]
            simp [hp, hv, hA]

/-- Claim C3, amended: the checkout validator accepts a body exactly when
it is a JSON object whose `items` field is a non-empty array of at most
50 item objects — each with a string `priceId` whose trim is non-empty
and matches `^price_[a-zA-Z0-9]+$`, and an integer `quantity` in
`[1, 99]` — AND whose `customerEmail` field, when present, is a string,
AND whose `metadata` field, when present, is a (non-null, non-array)
object.  The two extra typing conditions are what the counterexample
forces beyond the claim as frozen. -/
theorem checkout_validatePayload_accepts_iff (input : Json) :
    (Checkout.validatePayload input).isOk = amendedBodyCondition input := by
  unfold amendedBodyCondition claimBodyCondition emailFieldWellTyped metadataFieldWellTyped
  match input with
  | .null => rfl
  | .bool _ => rfl
  | .num _ => rfl
  | .str _ => rfl
  | .arr _ => rfl
  | .obj body =>
    simp only [Checkout.validatePayload]
    rcases hi : lookupField body "items" with _ | iv
    · simp [hi, Checkout.CheckoutValidation.isOk]
    · match iv with
      | .null => simp [hi, Checkout.CheckoutValidation.isOk]
      | .bool _ => simp [hi, Checkout.CheckoutValidation.isOk]
      | .num _ => simp [hi, Checkout.CheckoutValidation.isOk]
      | .str _ => simp [hi, Checkout.CheckoutValidation.isOk]
      | .obj _ => simp [hi, Checkout.CheckoutValidation.isOk]
      | .arr itemsInput =>
        by_cases hemp : itemsInput.isEmpty
        · simp [hi, hemp, Checkout.CheckoutValidation.isOk]
        · by_cases hlen : itemsInput.length > Checkout.MAX_LINE_ITEMS
          · have h50 : decide (itemsInput.length ≤ 50) = false :=
              decide_eq_false (by
                simp only [Checkout.MAX_LINE_ITEMS] at hlen
                omega)
            simp [hi, hemp, hlen, h50, Checkout.CheckoutValidation.isOk]
          · have h50 : decide (itemsInput.length ≤ 50) = true :=
              decide_eq_true (by
                simp only [Checkout.MAX_LINE_ITEMS] at hlen
                omega)
            rcases hval : Checkout.validateItems itemsInput 0 with msg | parsed
            · have hrec := validateItems_isRight itemsInput 0
              rw [hval] at hrec
              simp [hi, hemp, hlen, hval, Checkout.CheckoutValidation.isOk, ← hrec]
            · have hrec := validateItems_isRight itemsInput 0
              rw [hval] at hrec
              rcases he : lookupField body "customerEmail" with _ | ev
              · rcases hm : lookupField body "metadata" with _ | mv
                · simp [hi, hemp, hlen, h50, hval, he, hm, ← hrec,
                    Checkout.validatePayload.continueWithEmail,
                    Checkout.CheckoutValidation.isOk]
                · match mv with
                  | .null => simp [hi, hemp, hlen, hval, he, hm,
                      Checkout.validatePayload.continueWithEmail,
                      Checkout.CheckoutValidation.isOk]
                  | .bool _ => simp [hi, hemp, hlen, hval, he, hm,
                      Checkout.validatePayload.continueWithEmail,
                      Checkout.CheckoutValidation.isOk]
                  | .num _ => simp [hi, hemp, hlen, hval, he, hm,
                      Checkout.validatePayload.continueWithEmail,
                      Checkout.CheckoutValidation.isOk]
                  | .str _ => simp [hi, hemp, hlen, hval, he, hm,
                      Checkout.validatePayload.continueWithEmail,
                      Checkout.CheckoutValidation.isOk]
                  | .arr _ => simp [hi, hemp, hlen, hval, he, hm,
                      Checkout.validatePayload.continueWithEmail,
                      Checkout.CheckoutValidation.isOk]
                  | .obj mf => simp [hi, hemp, hlen, h50, hval, he, hm, ← hrec,
                      Checkout.validatePayload.continueWithEmail,
                      Checkout.CheckoutValidation.isOk]
              · match ev with
                | .null => simp [hi, hemp, hlen, hval, he,
                    Checkout.CheckoutValidation.isOk]
                | .bool _ => simp [hi, hemp, hlen, hval, he,
                    Checkout.CheckoutValidation.isOk]
                | .num _ => simp [hi, hemp, hlen, hval, he,
                    Checkout.CheckoutValidation.isOk]
                | .arr _ => simp [hi, hemp, hlen, hval, he,
                    Checkout.CheckoutValidation.isOk]
                | .obj _ => simp [hi, hemp, hlen, hval, he,
                    Checkout.CheckoutValidation.isOk]
                | .str emailStr =>
                  rcases hm : lookupField body "metadata" with _ | mv
                  · simp [hi, hemp, hlen, h50, hval, he, hm, ← hrec,
                      Checkout.validatePayload.continueWithEmail,
                      Checkout.CheckoutValidation.isOk]
                  · match mv with
                    | .null => simp [hi, hemp, hlen, hval, he, hm,
                        Checkout.validatePayload.continueWithEmail,
                        Checkout.CheckoutValidation.isOk]
                    | .bool _ => simp [hi, hemp, hlen, hval, he, hm,
                        Checkout.validatePayload.continueWithEmail,
                        Checkout.CheckoutValidation.isOk]
                    | .num _ => simp [hi, hemp, hlen, hval, he, hm,
                        Checkout.validatePayload.continueWithEmail,
                        Checkout.CheckoutValidation.isOk]
                    | .str _ => simp [hi, hemp, hlen, hval, he, hm,
                        Checkout.validatePayload.continueWithEmail,
                        Checkout.CheckoutValidation.isOk]
                    | .arr _ => simp [hi, hemp, hlen, hval, he, hm,
                        Checkout.validatePayload.continueWithEmail,
                        Checkout.CheckoutValidation.isOk]
                    | .obj mf => simp [hi, hemp, hlen, h50, hval, he, hm, ← hrec,
                        Checkout.validatePayload.continueWithEmail,
                        Checkout.CheckoutValidation.isOk]

/-- Counterexample to claim C3 as frozen: this body satisfies the
claim's stated acceptance condition (its `items` field is a valid
one-item array), yet the validator rejects it, because its
`customerEmail` is a number — so "accepts if and only if the items are
valid" fails in the "if" direction. -/
theorem checkout_claim_acceptance_counterexample :
    claimBodyCondition c3CounterexampleBody = true ∧
    (Checkout.validatePayload c3CounterexampleBody).isOk = false := by
  constructor
  · decide
  · decide

/-! ### Claims C9 and C10 — custom-order validation -/

/-- An accepted custom-order payload records exactly the parsed design
image, and when the field was present the parse did not come back
`undefined`. -/
theorem customOrder_ok_designImage (fields : List (String × Json))
    (p : CustomOrder.CustomOrderData) (ct : Option String)
    (h : CustomOrder.validatePayload (.obj fields) = .ok p ct) :
    p.designImage = CustomOrder.parseDesignImage (lookupField fields "designImage") ∧
    ((lookupField fields "designImage").isSome = true →
      (CustomOrder.parseDesignImage (lookupField fields "designImage")).isSome = true) := by
  simp only [CustomOrder.validatePayload] at h
  repeat (split at h <;> try simp at h)
  all_goals {
    have hguard : ¬((lookupField fields "designImage").isSome = true ∧
        CustomOrder.parseDesignImage (lookupField fields "designImage") = none) := by
      assumption
    obtain ⟨hp, -⟩ := h
    refine ⟨by rw [← hp], ?_⟩
    intro hsome
    rcases hpd : CustomOrder.parseDesignImage (lookupField fields "designImage") with _ | x
    · exact absurd ⟨hsome, hpd⟩ hguard
    · rfl }

/-- An accepted string design image with a non-blank trim must have
matched the data-URI pattern with decoded size in bounds, and is stored
trimmed. -/
theorem parseDesignImage_str_isSome (s : String)
    (hne : (jsTrim s).isEmpty = false)
    (h : (CustomOrder.parseDesignImage (some (.str s))).isSome = true) :
    ∃ encoded, CustomOrder.designImageMatch (jsTrim s) = some encoded ∧
      0 < CustomOrder.base64DecodedByteLength encoded ∧
      CustomOrder.base64DecodedByteLength encoded ≤ CustomOrder.MAX_DESIGN_IMAGE_BYTES ∧
      CustomOrder.parseDesignImage (some (.str s)) = some (some (jsTrim s)) := by
  simp only [CustomOrder.parseDesignImage] at h ⊢
  rw [if_neg (by simp [hne])] at h ⊢
  rcases hm : CustomOrder.designImageMatch (jsTrim s) with _ | encoded
  · simp [hm] at h
  · simp only [hm] at h ⊢
    by_cases hlen : (CustomOrder.base64DecodedByteLength encoded == 0 ||
        decide (CustomOrder.base64DecodedByteLength encoded >
          CustomOrder.MAX_DESIGN_IMAGE_BYTES)) = true
    · rw [if_pos hlen] at h
      simp at h
    · rw [if_neg hlen] at h ⊢
      simp only [Bool.or_eq_true, beq_iff_eq, decide_eq_true_eq, not_or] at hlen
      exact ⟨encoded, rfl, by omega, by omega, rfl⟩

/-- Claim C9, amended: in an accepted custom-order payload every stored
design image matched the strict data-URI pattern and decodes to between
1 and 2·1024·1024 bytes; and for a present `designImage` field, an
explicit `null` or a string that trims to empty is normalized to `null`
(treated as absent rather than rejected — this is what the
counterexample forces), a string with non-blank trim must satisfy
pattern and size bounds and is stored trimmed, and any other value type
is impossible in an accepted payload. -/
theorem designImage_validation (fields : List (String × Json))
    (p : CustomOrder.CustomOrderData) (ct : Option String)
    (h : CustomOrder.validatePayload (.obj fields) = .ok p ct) :
    (∀ s, p.designImage = some (some s) →
      ∃ encoded, CustomOrder.designImageMatch s = some encoded ∧
        0 < CustomOrder.base64DecodedByteLength encoded ∧
        CustomOrder.base64DecodedByteLength encoded ≤ CustomOrder.MAX_DESIGN_IMAGE_BYTES) ∧
    (∀ v, lookupField fields "designImage" = some v →
      (v = .null → p.designImage = some none) ∧
      (∀ s, v = .str s → (jsTrim s).isEmpty = true → p.designImage = some none) ∧
      (∀ s, v = .str s → (jsTrim s).isEmpty = false →
        ∃ encoded, CustomOrder.designImageMatch (jsTrim s) = some encoded ∧
          0 < CustomOrder.base64DecodedByteLength encoded ∧
          CustomOrder.base64DecodedByteLength encoded ≤ CustomOrder.MAX_DESIGN_IMAGE_BYTES ∧
          p.designImage = some (some (jsTrim s))) ∧
      ((v = .null → False) → (∀ s, v = .str s → False) → False)) := by
  obtain ⟨himg, hsome⟩ := customOrder_ok_designImage fields p ct h
  constructor
  · intro s hs
    rcases hl : lookupField fields "designImage" with _ | v
    · rw [hl] at himg
      rw [himg] at hs
      simp [CustomOrder.parseDesignImage] at hs
    · rw [hl] at himg
      match v with
      | .null =>
        rw [himg] at hs
        simp [CustomOrder.parseDesignImage] at hs
      | .bool _ =>
        rw [himg] at hs
        simp [CustomOrder.parseDesignImage] at hs
      | .num _ =>
        rw [himg] at hs
        simp [CustomOrder.parseDesignImage] at hs
      | .arr _ =>
        rw [himg] at hs
        simp [CustomOrder.parseDesignImage] at hs
      | .obj _ =>
        rw [himg] at hs
        simp [CustomOrder.parseDesignImage] at hs
      | .str raw =>
        by_cases hne : (jsTrim raw).isEmpty
        · rw [himg] at hs
          simp only [CustomOrder.parseDesignImage, if_pos hne] at hs
          cases hs
        · have hps := parseDesignImage_str_isSome raw (by simpa using hne)
            (by rw [hl] at hsome; exact hsome (by simp))
          rcases hps with ⟨encoded, hmatch, hpos, hle, heq⟩
          rw [heq] at himg
          rw [himg] at hs
          have : jsTrim raw = s := by
            cases hs
            rfl
          subst this
          exact ⟨encoded, hmatch, hpos, hle⟩
  · intro v hv
    rw [hv] at himg hsome
    refine ⟨?_, ?_, ?_, ?_⟩
    · intro hnull
      subst hnull
      rw [himg]
      rfl
    · intro s hstr hblank
      subst hstr
      rw [himg]
      simp [CustomOrder.parseDesignImage, hblank]
    · intro s hstr hne
      subst hstr
      have hps := parseDesignImage_str_isSome s hne (hsome (by simp))
      rcases hps with ⟨encoded, hmatch, hpos, hle, heq⟩
      exact ⟨encoded, hmatch, hpos, hle, by rw [himg, heq]⟩
    · intro hnotnull hnotstr
      have : CustomOrder.parseDesignImage (some v) = none := by
        match v with
        | .null => exact absurd rfl hnotnull
        | .str s => exact absurd rfl (hnotstr s)
        | .bool _ => rfl
        | .num _ => rfl
        | .arr _ => rfl
        | .obj _ => rfl
      have := hsome (by simp)
      rw [this] at *
      simp_all

/-- Witness for claim C9's amended theorem: a small valid png data URI
is accepted and its decoded size is certified in bounds. -/
theorem designImage_validation_witness :
    CustomOrder.validatePayload (.obj c9WitnessFields) =
      .ok { name := "ab", email := "a@b.c", productType := "hat", colors := ["red"],
            orientation := "", stitchType := "",
            designImage := some (some "data:image/png;base64,QUJD") } none ∧
    ∃ encoded, CustomOrder.designImageMatch "data:image/png;base64,QUJD" = some encoded ∧
      0 < CustomOrder.base64DecodedByteLength encoded ∧
      CustomOrder.base64DecodedByteLength encoded ≤ CustomOrder.MAX_DESIGN_IMAGE_BYTES := by
  have hval : CustomOrder.validatePayload (.obj c9WitnessFields) =
      .ok { name := "ab", email := "a@b.c", productType := "hat", colors := ["red"],
            orientation := "", stitchType := "",
            designImage := some (some "data:image/png;base64,QUJD") } none := by
    decide
  exact ⟨hval, (designImage_validation c9WitnessFields _ none hval).1
    "data:image/png;base64,QUJD" rfl⟩

/-- Counterexample to claim C9 as frozen: a present but blank
`designImage` string violates the required data-URI pattern, yet the
payload is accepted with the field silently normalized to `null` instead
of being rejected. -/
theorem designImage_claim_counterexample :
    lookupField c9CounterexampleFields "designImage" = some (.str "") ∧
    CustomOrder.designImageMatch (jsTrim "") = none ∧
    CustomOrder.validatePayload (.obj c9CounterexampleFields) =
      .ok { name := "ab", email := "a@b.c", productType := "hat", colors := ["red"],
            orientation := "", stitchType := "", designImage := some none } none := by
  refine ⟨rfl, rfl, by decide⟩

/-- Claim C10: the custom-order validator checks the length bounds on
the trimmed raw fields and sanitizes afterwards, so the body whose name
is `<>` (trimmed length 2, passing the minimum-2 check) is accepted while
its sanitized name is the empty string — shorter than the checked
minimum. -/
theorem sanitize_after_length_check :
    jsTrim "<>" = "<>" ∧ ("<>" : String).length = 2 ∧
    CustomOrder.sanitizeInput "<>" CustomOrder.MAX_NAME_LENGTH = "" ∧
    CustomOrder.validatePayload (.obj c10Fields) =
      .ok { name := "", email := "a@b.c", productType := "hat", colors := ["red"],
            orientation := "", stitchType := "", designImage := none } none ∧
    ("" : String).length < 2 := by
  refine ⟨rfl, rfl, by decide, by decide, by decide⟩

end StitchWyse
